import Mathlib

set_option autoImplicit false

/-!
Verification of the conversation-graph store of lattice-chat.

The development shallowly embeds the per-exchange iteration of the zustand
conversation store (the iteration whose node type carries `messages` and
`currentExchange`), together with the streaming orchestration of
`useAIChat.ts` and the submit handlers of `ConversationCanvas.tsx`.

Modelling conventions:
* String ids produced by `generateId()` are modelled as natural numbers drawn
  from a fresh-id counter `nextId` carried in the store state; `generateId()`
  returns the counter value and bumps it.
* `Date` timestamps (`createdAt`, `updatedAt`, `lastActivity`, message
  timestamps) are omitted: no verified property mentions them.
* JS `string | undefined` values are `Option String`; `none` is `undefined`.
  JS truthiness of such a value (`undefined` and `""` are falsy) is
  `strTruthy`.
* Numeric counters (`nodeCount`, `branchCount`, `totalMessages`) are `Int`,
  matching JS numbers on the integer values these fields take.
* Presentation-only fields (`style`, viewport) are omitted.
-/

namespace LatticeChat

inductive Role where
  | user
  | assistant
deriving Repr, DecidableEq

/-- `ChatMessage` of the types module: role, content, optional quoted text
(timestamp omitted). -/
structure ChatMessage where
  role : Role
  content : String
  quotedText : Option String
deriving Repr, DecidableEq

/-- The `currentExchange` record of `ConversationNode`.  `aiResponse` is
`Option String` because the canvas submit handlers can write the awaited
`undefined` of a `void` promise into it; the store itself initialises it to
`some ""`. -/
structure CurrentExchange where
  userMessage : String
  aiResponse : Option String
  quotedText : Option String
  sourceNodeId : Option Nat
deriving Repr, DecidableEq

structure Pos where
  x : Int
  y : Int
deriving Repr, DecidableEq

/-- `ConversationNode`: id, parent pointer, inherited message snapshot,
current exchange, canvas position (createdAt omitted). -/
structure ConversationNode where
  id : Nat
  parentId : Option Nat
  messages : List ChatMessage
  currentExchange : CurrentExchange
  position : Pos
deriving Repr, DecidableEq

inductive EdgeType where
  | default
  | branch
deriving Repr, DecidableEq

/-- `ConversationEdge` (style hint omitted). -/
structure ConversationEdge where
  id : Nat
  source : Nat
  target : Nat
  type : EdgeType
  animated : Bool
deriving Repr, DecidableEq

structure CanvasMetadata where
  nodeCount : Int
  branchCount : Int
deriving Repr, DecidableEq

/-- `ConversationCanvas` (viewport and timestamps omitted). -/
structure ConversationCanvas where
  id : Nat
  title : String
  nodes : List ConversationNode
  edges : List ConversationEdge
  metadata : CanvasMetadata
deriving Repr, DecidableEq

structure SessionMetadata where
  totalMessages : Int
  branchCount : Int
deriving Repr, DecidableEq

structure ConversationSession where
  id : Nat
  title : String
  canvas : ConversationCanvas
  metadata : SessionMetadata
deriving Repr, DecidableEq

structure StreamingState where
  isStreaming : Bool
  currentText : String
  nodeId : Option Nat
deriving Repr, DecidableEq

/-- `TextSelection` (screen position omitted). -/
structure TextSelection where
  nodeId : Nat
  startIndex : Int
  endIndex : Int
  selectedText : String
deriving Repr, DecidableEq

/-- The zustand store state, plus the fresh-id counter modelling
`generateId()`. -/
structure Store where
  sessions : List ConversationSession
  activeSessionId : Option Nat
  activeNodeId : Option Nat
  streamingState : StreamingState
  textSelection : Option TextSelection
  nextId : Nat
deriving Repr, DecidableEq

def initialStreamingState : StreamingState :=
  { isStreaming := false, currentText := "", nodeId := none }

/-- The store's initial state. -/
def initialStore : Store :=
  { sessions := []
    activeSessionId := none
    activeNodeId := none
    streamingState := initialStreamingState
    textSelection := none
    nextId := 0 }

/-- JS `String.prototype.trim`: strip leading and trailing whitespace.
Written with list operations so the kernel can evaluate it (Lean's own
`String.trim` is defined through `Substring` byte positions, which do not
reduce definitionally). -/
def jsTrim (s : String) : String :=
  ⟨((s.data.dropWhile Char.isWhitespace).reverse.dropWhile Char.isWhitespace).reverse⟩

/-- JS truthiness of a `string | undefined` value: `undefined` and `""` are
falsy, every other string is truthy. -/
def strTruthy : Option String → Bool
  | none => false
  | some s => s ≠ ""

/-- The JS idiom `x || undefined` on a `string | undefined` value. -/
def orUndefined (q : Option String) : Option String :=
  if strTruthy q then q else none

/-- `getActiveSession`: `sessions.find(s => s.id === activeSessionId) || null`. -/
def getActiveSession (s : Store) : Option ConversationSession :=
  match s.activeSessionId with
  | none => none
  | some sid => s.sessions.find? (fun sess => sess.id == sid)

/-- `getActiveCanvas`: `session?.canvas || null`. -/
def getActiveCanvas (s : Store) : Option ConversationCanvas :=
  (getActiveSession s).map (fun sess => sess.canvas)

/-- `getNode`: look the node up in the active canvas, `null` when absent. -/
def getNode (s : Store) (nodeId : Nat) : Option ConversationNode :=
  match getActiveCanvas s with
  | none => none
  | some canvas => canvas.nodes.find? (fun n => n.id == nodeId)

/-- `getNodeHistory`: the node's inherited message snapshot (a copy), `[]`
when the node is absent. -/
def getNodeHistory (s : Store) (nodeId : Nat) : List ChatMessage :=
  match getNode s nodeId with
  | none => []
  | some node => node.messages

/-- The body of `getNodeConversation` for a resolved node: inherited history
plus the current exchange; the user turn is appended when
`currentExchange.userMessage` is truthy, the assistant turn when
`currentExchange.aiResponse` is truthy. -/
def nodeConversation (node : ConversationNode) : List ChatMessage :=
  let withUser :=
    if strTruthy (some node.currentExchange.userMessage) then
      node.messages ++
        [{ role := Role.user
           content := node.currentExchange.userMessage
           quotedText := node.currentExchange.quotedText }]
    else node.messages
  if strTruthy node.currentExchange.aiResponse then
    withUser ++
      [{ role := Role.assistant
         content := node.currentExchange.aiResponse.getD ""
         quotedText := none }]
  else withUser

/-- `getNodeConversation`: `[]` when the node does not resolve, otherwise its
inherited history plus its current exchange. -/
def getNodeConversation (s : Store) (nodeId : Nat) : List ChatMessage :=
  match getNode s nodeId with
  | none => []
  | some node => nodeConversation node

/-- `createSession`: fresh session with an empty canvas; becomes active. -/
def createSession (s : Store) (title : String) : Store × Nat :=
  let sessionId := s.nextId
  let canvas : ConversationCanvas :=
    { id := s.nextId + 1
      title := title
      nodes := []
      edges := []
      metadata := { nodeCount := 0, branchCount := 0 } }
  let newSession : ConversationSession :=
    { id := sessionId
      title := title
      canvas := canvas
      metadata := { totalMessages := 0, branchCount := 0 } }
  ({ s with
      sessions := s.sessions ++ [newSession]
      activeSessionId := some sessionId
      nextId := s.nextId + 2 }, sessionId)

/-- `setActiveSession`. -/
def setActiveSession (s : Store) (sessionId : Nat) : Store :=
  { s with activeSessionId := some sessionId }

/-- `deleteSession`: drop the session; clear the active pointer if it was
active. -/
def deleteSession (s : Store) (sessionId : Nat) : Store :=
  { s with
      sessions := s.sessions.filter (fun sess => sess.id != sessionId)
      activeSessionId :=
        if s.activeSessionId == some sessionId then none
        else s.activeSessionId }

/-- JS `findIndex` followed by in-place replacement of the found element. -/
def updateFirst {α : Type} (p : α → Bool) (f : α → α) : List α → List α
  | [] => []
  | x :: xs => if p x then f x :: xs else x :: updateFirst p f xs

/-- The shared prologue of every store write action: find the active
session's index, early-return when there is no active session or the id does
not resolve, otherwise replace that session with an updated copy. -/
def withActiveSession (s : Store) (f : ConversationSession → ConversationSession) : Store :=
  match s.activeSessionId with
  | none => s
  | some sid =>
    if s.sessions.any (fun sess => sess.id == sid) then
      { s with sessions := updateFirst (fun sess => sess.id == sid) f s.sessions }
    else s

/-- The session transformer of `addNode`. -/
def addNodeSess (node : ConversationNode) (sess : ConversationSession) :
    ConversationSession :=
  { sess with
      canvas :=
        { sess.canvas with
            nodes := sess.canvas.nodes ++ [node]
            metadata :=
              { sess.canvas.metadata with
                  nodeCount := (sess.canvas.nodes.length : Int) + 1 } }
      metadata :=
        { sess.metadata with
            totalMessages := sess.metadata.totalMessages + 1 } }

/-- `addNode`: append the node, set `nodeCount` to `nodes.length + 1`, bump
`totalMessages`. -/
def addNode (s : Store) (node : ConversationNode) : Store :=
  withActiveSession s (addNodeSess node)

/-- `Partial<ConversationNode>` as accepted by `updateNode`.  Every field of
the node is updatable, including `id`: the source merges
`{ ...node, ...updates }` with no restriction, so an update carrying `id`
renames the node (the repository's own callers — `finishStreaming` and the
canvas submit handlers — only ever pass `currentExchange`, but the store
does not enforce that). -/
structure NodeUpdates where
  id : Option Nat := none
  parentId : Option (Option Nat) := none
  messages : Option (List ChatMessage) := none
  currentExchange : Option CurrentExchange := none
  position : Option Pos := none
deriving Repr, DecidableEq

/-- The JS object spread `{ ...node, ...updates }`. -/
def applyUpdates (n : ConversationNode) (u : NodeUpdates) : ConversationNode :=
  { n with
      id := u.id.getD n.id
      parentId := u.parentId.getD n.parentId
      messages := u.messages.getD n.messages
      currentExchange := u.currentExchange.getD n.currentExchange
      position := u.position.getD n.position }

/-- An update that only sets `currentExchange`, the shape every caller in the
repository passes. -/
def exchangeUpdate (ce : CurrentExchange) : NodeUpdates :=
  { parentId := none, messages := none, currentExchange := some ce, position := none }

/-- The session transformer of `updateNode`. -/
def updateNodeSess (nodeId : Nat) (u : NodeUpdates) (sess : ConversationSession) :
    ConversationSession :=
  if sess.canvas.nodes.any (fun n => n.id == nodeId) then
    { sess with
        canvas :=
          { sess.canvas with
              nodes :=
                updateFirst (fun n => n.id == nodeId)
                  (fun n => applyUpdates n u) sess.canvas.nodes } }
  else sess

/-- `updateNode`: merge the fields into the node when it exists, otherwise
leave the session untouched. -/
def updateNode (s : Store) (nodeId : Nat) (u : NodeUpdates) : Store :=
  withActiveSession s (updateNodeSess nodeId u)

/-- The session transformer of `removeNode`: drop the node and every edge
touching it; set `nodeCount` to `nodes.length - 1` and decrement
`totalMessages` (clamped at 0), exactly as the code does even when the node
id does not occur. -/
def removeNodeSess (nodeId : Nat) (sess : ConversationSession) :
    ConversationSession :=
  { sess with
      canvas :=
        { sess.canvas with
            nodes := sess.canvas.nodes.filter (fun n => n.id != nodeId)
            edges :=
              sess.canvas.edges.filter
                (fun e => e.source != nodeId && e.target != nodeId)
            metadata :=
              { sess.canvas.metadata with
                  nodeCount := (sess.canvas.nodes.length : Int) - 1 } }
      metadata :=
        { sess.metadata with
            totalMessages := max 0 (sess.metadata.totalMessages - 1) } }

def removeNode (s : Store) (nodeId : Nat) : Store :=
  withActiveSession s (removeNodeSess nodeId)

/-- The session transformer of `addEdge`: append the edge; bump both branch
counters when the edge is typed `branch`. -/
def addEdgeSess (edge : ConversationEdge) (sess : ConversationSession) :
    ConversationSession :=
  let inc : Int := if edge.type == EdgeType.branch then 1 else 0
  { sess with
      canvas :=
        { sess.canvas with
            edges := sess.canvas.edges ++ [edge]
            metadata :=
              { sess.canvas.metadata with
                  branchCount := sess.canvas.metadata.branchCount + inc } }
      metadata :=
        { sess.metadata with
            branchCount := sess.metadata.branchCount + inc } }

def addEdge (s : Store) (edge : ConversationEdge) : Store :=
  withActiveSession s (addEdgeSess edge)

/-- The session transformer of `removeEdge`: drop the edge; decrement both
branch counters (clamped at 0) when the removed edge was typed `branch`. -/
def removeEdgeSess (edgeId : Nat) (sess : ConversationSession) :
    ConversationSession :=
  let branchRemoved : Int :=
    match sess.canvas.edges.find? (fun e => e.id == edgeId) with
    | some e => if e.type == EdgeType.branch then 1 else 0
    | none => 0
  { sess with
      canvas :=
        { sess.canvas with
            edges := sess.canvas.edges.filter (fun e => e.id != edgeId)
            metadata :=
              { sess.canvas.metadata with
                  branchCount :=
                    max 0 (sess.canvas.metadata.branchCount - branchRemoved) } }
      metadata :=
        { sess.metadata with
            branchCount := max 0 (sess.metadata.branchCount - branchRemoved) } }

def removeEdge (s : Store) (edgeId : Nat) : Store :=
  withActiveSession s (removeEdgeSess edgeId)

/-- `createContextualNode`: snapshot the parent's complete conversation
(`getNodeConversation`), build the node with that inherited history and a
fresh exchange (`userMessage.trim()`, empty `aiResponse`,
`quotedText || undefined`), register it with `addNode`, and when a parent id
was given add a parent→child edge typed `branch` iff `quotedText` is truthy.
Returns the fresh node id unconditionally. -/
def createContextualNode (s : Store) (userMessage : String)
    (parentNodeId : Option Nat) (quotedText : Option String)
    (sourceNodeId : Option Nat) (position : Option Pos) : Store × Nat :=
  let nodeId := s.nextId
  let s0 : Store := { s with nextId := s.nextId + 1 }
  let parentHistory : List ChatMessage :=
    match parentNodeId with
    | some pid => getNodeConversation s0 pid
    | none => []
  let node : ConversationNode :=
    { id := nodeId
      parentId := parentNodeId
      messages := parentHistory
      currentExchange :=
        { userMessage := jsTrim userMessage
          aiResponse := some ""
          quotedText := orUndefined quotedText
          sourceNodeId := sourceNodeId }
      position := position.getD { x := 0, y := 0 } }
  let s1 := addNode s0 node
  match parentNodeId with
  | some pid =>
    let edge : ConversationEdge :=
      { id := s1.nextId
        source := pid
        target := nodeId
        type := if strTruthy quotedText then EdgeType.branch else EdgeType.default
        animated := strTruthy quotedText }
    (addEdge { s1 with nextId := s1.nextId + 1 } edge, nodeId)
  | none => (s1, nodeId)

/-- `setActiveNode`. -/
def setActiveNode (s : Store) (nodeId : Option Nat) : Store :=
  { s with activeNodeId := nodeId }

/-- `startStreaming`: unconditionally overwrite the streaming state. -/
def startStreaming (s : Store) (nodeId : Nat) : Store :=
  { s with
      streamingState :=
        { isStreaming := true, currentText := "", nodeId := some nodeId } }

/-- `updateStreamingText`: set (not append) the buffer to `text`. -/
def updateStreamingText (s : Store) (text : String) : Store :=
  { s with
      streamingState := { s.streamingState with currentText := text } }

/-- The commit step shared by `finishStreaming` and the canvas submit
handlers: `updateNode(nodeId, { currentExchange: { ...node.currentExchange,
aiResponse: text } })`, a no-op when the node is absent. -/
def commitAiResponse (s : Store) (nodeId : Nat) (text : Option String) : Store :=
  match getNode s nodeId with
  | some node =>
    updateNode s nodeId
      (exchangeUpdate { node.currentExchange with aiResponse := text })
  | none => s

/-- `finishStreaming`: when a target node and a non-empty buffer exist, commit
the buffer into the node's `currentExchange.aiResponse`; reset the streaming
state to idle in every case. -/
def finishStreaming (s : Store) : Store :=
  let s1 :=
    match s.streamingState.nodeId with
    | some nid =>
      if s.streamingState.currentText ≠ "" then
        commitAiResponse s nid (some s.streamingState.currentText)
      else s
    | none => s
  { s1 with streamingState := initialStreamingState }

/-- `clearAll`. -/
def clearAll (s : Store) : Store :=
  { s with
      sessions := []
      activeSessionId := none
      activeNodeId := none
      streamingState := initialStreamingState
      textSelection := none }

/-! ### Persistence -/

/-- The shape zustand-persist serialises under the storage key. -/
structure PersistedState where
  sessions : List ConversationSession
  activeSessionId : Option Nat
  activeNodeId : Option Nat
  streamingState : StreamingState
  textSelection : Option TextSelection
deriving Repr, DecidableEq

def emptyPersistedState : PersistedState :=
  { sessions := []
    activeSessionId := none
    activeNodeId := none
    streamingState := initialStreamingState
    textSelection := none }

/-- The persist `migrate` callback: stored versions older than the current
schema version 4 are wiped to the empty initial state; otherwise the
persisted state is returned as is. -/
def migrate (persistedState : PersistedState) (version : Int) : PersistedState :=
  if version < 4 then emptyPersistedState else persistedState

/-! ### Orchestration layer (`useAIChat.ts` and `ConversationCanvas.tsx`) -/

/-- The outcome of one AI Completion Service streaming call as observed by
`streamMessage`: the chunks delivered in order, and `some msg` when the
service then raises an error with message `msg` (`none` = normal end of
stream). -/
structure ServiceOutcome where
  chunks : List String
  error : Option String
deriving Repr, DecidableEq

/-- `streamMessage` of `useAIChat.ts`, run against this conversation store.
Control flow of the source: start streaming, accumulate `fullResponse` and
surface it through `updateStreamingText` per chunk, then `finishStreaming()`;
a service error is caught in the function's own `catch`, which also calls
`finishStreaming()` and does not rethrow.  The function's return type is
`Promise<void>`, so the awaited value is `undefined` (`none`) on success and
on failure alike.  (The `addMessage`/`getConversationHistory` calls the
source makes target a store API that does not exist in this store iteration
and touch no state here; they are not modelled.) -/
def streamMessage (s : Store) (nodeId : Nat) (outcome : ServiceOutcome) :
    Store × Option String :=
  let s1 := startStreaming s nodeId
  let s2 :=
    (outcome.chunks.foldl
      (fun (acc : Store × String) chunk =>
        let full := acc.2 ++ chunk
        (updateStreamingText acc.1 full, full))
      (s1, "")).1
  (finishStreaming s2, none)

/-- The error text the canvas submit handlers would write on a rejected
generation promise. -/
def generationErrorText (msg : String) : String :=
  "Error: " ++ msg ++ ". Please check your API configuration and try again."

/-- `handleMainInputSubmit` / `handleBranchSubmit` of
`ConversationCanvas.tsx`: create the contextual node, await
`streamMessage`, then write the awaited value into the node's
`currentExchange.aiResponse`.  Because `streamMessage` never rejects (its own
`catch` swallows service errors), the handler's `catch` block — the one that
writes `generationErrorText` — is unreachable, and the success path always
runs with the awaited `undefined`. -/
def submitFlow (s : Store) (message : String) (parentNodeId : Option Nat)
    (quotedText : Option String) (sourceNodeId : Option Nat)
    (position : Option Pos) (outcome : ServiceOutcome) : Store × Nat :=
  let res := createContextualNode s message parentNodeId quotedText sourceNodeId position
  let s2 := (streamMessage res.1 res.2 outcome).1
  let response := (streamMessage res.1 res.2 outcome).2
  match getNode s2 res.2 with
  | some storeNode =>
    (updateNode s2 res.2
      (exchangeUpdate { storeNode.currentExchange with aiResponse := response }),
     res.2)
  | none => (s2, res.2)

/-! ### List lemmas about `updateFirst` -/

theorem updateFirst_of_find?_none {α : Type} {p : α → Bool} {f : α → α} :
    ∀ {l : List α}, l.find? p = none → updateFirst p f l = l
  | [], _ => rfl
  | x :: xs, h => by
    have hx : p x = false := by
      cases hpx : p x
      · rfl
      · rw [List.find?_cons_of_pos _ hpx] at h; cases h
    rw [List.find?_cons_of_neg _ (by simp [hx])] at h
    simp [updateFirst, hx, updateFirst_of_find?_none h]

theorem updateFirst_eq_self {α : Type} {p : α → Bool} {f : α → α} :
    ∀ {l : List α} {a : α}, l.find? p = some a → f a = a → updateFirst p f l = l
  | [], _, h, _ => by cases h
  | x :: xs, a, h, hfa => by
    cases hx : p x with
    | true =>
      rw [List.find?_cons_of_pos _ hx] at h
      have hax : x = a := by cases h; rfl
      subst hax
      simp [updateFirst, hx, hfa]
    | false =>
      rw [List.find?_cons_of_neg _ (by simp [hx])] at h
      simp [updateFirst, hx, updateFirst_eq_self h hfa]

theorem find?_updateFirst {α : Type} {p : α → Bool} {f : α → α} :
    ∀ {l : List α} {a : α}, l.find? p = some a → p (f a) = true →
      (updateFirst p f l).find? p = some (f a)
  | [], _, h, _ => by cases h
  | x :: xs, a, h, hfa => by
    cases hx : p x with
    | true =>
      rw [List.find?_cons_of_pos _ hx] at h
      have hax : x = a := by cases h; rfl
      subst hax
      simp [updateFirst, hx, List.find?_cons_of_pos _ hfa]
    | false =>
      rw [List.find?_cons_of_neg _ (by simp [hx])] at h
      simp [updateFirst, hx, List.find?_cons_of_neg _ (by simp [hx] : ¬ p x = true),
        find?_updateFirst h hfa]

theorem mem_updateFirst {α : Type} {p : α → Bool} {f : α → α} :
    ∀ {l : List α} {y : α}, y ∈ updateFirst p f l →
      y ∈ l ∨ ∃ x, l.find? p = some x ∧ y = f x
  | [], _, h => by cases h
  | x :: xs, y, h => by
    cases hx : p x with
    | true =>
      simp only [updateFirst, hx, if_pos] at h
      rcases List.mem_cons.mp h with h1 | h1
      · exact Or.inr ⟨x, List.find?_cons_of_pos _ hx, h1⟩
      · exact Or.inl (List.mem_cons_of_mem _ h1)
    | false =>
      simp only [updateFirst, hx, Bool.false_eq_true, if_neg, not_false_eq_true] at h
      rcases List.mem_cons.mp h with h1 | h1
      · exact Or.inl (h1 ▸ List.mem_cons_self _ _)
      · rcases mem_updateFirst h1 with h2 | ⟨z, hz, hyz⟩
        · exact Or.inl (List.mem_cons_of_mem _ h2)
        · exact Or.inr ⟨z, by rw [List.find?_cons_of_neg _ (by simp [hx])]; exact hz, hyz⟩

theorem updateFirst_updateFirst {α : Type} {p : α → Bool} {f g : α → α}
    (hp : ∀ x, p (f x) = p x) :
    ∀ l : List α, updateFirst p g (updateFirst p f l) = updateFirst p (fun x => g (f x)) l
  | [] => rfl
  | x :: xs => by
    cases hx : p x with
    | true => simp [updateFirst, hx, hp]
    | false => simp [updateFirst, hx, updateFirst_updateFirst hp xs]

theorem map_updateFirst {α β : Type} {p : α → Bool} {f : α → α} {g : α → β}
    (hg : ∀ x, g (f x) = g x) :
    ∀ l : List α, (updateFirst p f l).map g = l.map g
  | [] => rfl
  | x :: xs => by
    cases hx : p x with
    | true => simp [updateFirst, hx, hg]
    | false => simp [updateFirst, hx, map_updateFirst hg xs]

theorem updateFirst_append_single {α : Type} {p : α → Bool} {f : α → α}
    {l : List α} {x : α} (hl : l.find? p = none) (hx : p x = true) :
    updateFirst p f (l ++ [x]) = l ++ [f x] := by
  induction l with
  | nil => simp [updateFirst, hx]
  | cons y ys ih =>
    have hy : p y = false := by
      cases hpy : p y
      · rfl
      · rw [List.find?_cons_of_pos _ hpy] at hl; cases hl
    rw [List.find?_cons_of_neg _ (by simp [hy])] at hl
    simp [updateFirst, hy, ih hl]

/-! ### Store helper lemmas -/

/-- Unpack `getActiveSession s = some sess` into the underlying id lookup. -/
theorem activeSession_destruct {s : Store} {sess : ConversationSession}
    (h : getActiveSession s = some sess) :
    ∃ sid, s.activeSessionId = some sid ∧
      s.sessions.find? (fun x => x.id == sid) = some sess := by
  unfold getActiveSession at h
  cases hs : s.activeSessionId with
  | none => rw [hs] at h; cases h
  | some sid =>
    rw [hs] at h
    exact ⟨sid, rfl, h⟩

theorem anyActive_of_find? {s : Store} {sid : Nat} {sess : ConversationSession}
    (hfind : s.sessions.find? (fun x => x.id == sid) = some sess) :
    s.sessions.any (fun x => x.id == sid) = true := by
  have hp := List.find?_some hfind
  exact List.any_eq_true.mpr ⟨sess, List.mem_of_find?_eq_some hfind, hp⟩

/-- The explicit form of a write action when the active session resolves. -/
theorem withActiveSession_eq_update {s : Store} {sid : Nat}
    {f : ConversationSession → ConversationSession}
    (hs : s.activeSessionId = some sid)
    (hany : s.sessions.any (fun x => x.id == sid) = true) :
    withActiveSession s f =
      { s with sessions := updateFirst (fun x => x.id == sid) f s.sessions } := by
  unfold withActiveSession
  rw [hs]
  simp [hany]

/-- A write action is the identity when the active session id is unset or
dangling. -/
theorem withActiveSession_of_dangling {s : Store}
    {f : ConversationSession → ConversationSession}
    (h : ∀ sid, s.activeSessionId = some sid →
      s.sessions.any (fun x => x.id == sid) = false) :
    withActiveSession s f = s := by
  unfold withActiveSession
  cases hs : s.activeSessionId with
  | none => rfl
  | some sid => simp [h sid hs]

theorem withActiveSession_of_none {s : Store}
    {f : ConversationSession → ConversationSession}
    (h : getActiveSession s = none) : withActiveSession s f = s := by
  apply withActiveSession_of_dangling
  intro sid hs
  unfold getActiveSession at h
  rw [hs] at h
  have h2 : s.sessions.find? (fun x => x.id == sid) = none := h
  rw [List.any_eq_false]
  intro x hx
  have h3 := List.find?_eq_none.mp h2 x hx
  simpa using h3

theorem getActiveSession_withActiveSession {s : Store}
    {f : ConversationSession → ConversationSession} {sess : ConversationSession}
    (h : getActiveSession s = some sess) (hf : ∀ x, (f x).id = x.id) :
    getActiveSession (withActiveSession s f) = some (f sess) := by
  obtain ⟨sid, hs, hfind⟩ := activeSession_destruct h
  have hp := List.find?_some hfind
  have hany := anyActive_of_find? hfind
  rw [withActiveSession_eq_update hs hany]
  unfold getActiveSession
  have hs2 : ({ s with
      sessions := updateFirst (fun x => x.id == sid) f s.sessions } : Store).activeSessionId
      = some sid := hs
  rw [hs2]
  have hpf : ((f sess).id == sid) = true := by rw [hf sess]; exact hp
  exact find?_updateFirst hfind hpf

theorem withActiveSession_activeSessionId (s : Store)
    (f : ConversationSession → ConversationSession) :
    (withActiveSession s f).activeSessionId = s.activeSessionId := by
  cases hs : s.activeSessionId with
  | none => unfold withActiveSession; rw [hs]; exact hs
  | some sid =>
    cases hany : s.sessions.any (fun x => x.id == sid) with
    | true => rw [withActiveSession_eq_update hs hany]; exact hs
    | false =>
      rw [withActiveSession_of_dangling
        (fun sid2 hs2 => by rw [hs] at hs2; cases hs2; exact hany)]
      exact hs

theorem withActiveSession_nextId (s : Store)
    (f : ConversationSession → ConversationSession) :
    (withActiveSession s f).nextId = s.nextId := by
  cases hs : s.activeSessionId with
  | none => unfold withActiveSession; rw [hs]
  | some sid =>
    cases hany : s.sessions.any (fun x => x.id == sid) with
    | true => rw [withActiveSession_eq_update hs hany]
    | false =>
      rw [withActiveSession_of_dangling
        (fun sid2 hs2 => by rw [hs] at hs2; cases hs2; exact hany)]

theorem withActiveSession_streamingState (s : Store)
    (f : ConversationSession → ConversationSession) :
    (withActiveSession s f).streamingState = s.streamingState := by
  cases hs : s.activeSessionId with
  | none => unfold withActiveSession; rw [hs]
  | some sid =>
    cases hany : s.sessions.any (fun x => x.id == sid) with
    | true => rw [withActiveSession_eq_update hs hany]
    | false =>
      rw [withActiveSession_of_dangling
        (fun sid2 hs2 => by rw [hs] at hs2; cases hs2; exact hany)]

theorem withActiveSession_textSelection (s : Store)
    (f : ConversationSession → ConversationSession) :
    (withActiveSession s f).textSelection = s.textSelection := by
  cases hs : s.activeSessionId with
  | none => unfold withActiveSession; rw [hs]
  | some sid =>
    cases hany : s.sessions.any (fun x => x.id == sid) with
    | true => rw [withActiveSession_eq_update hs hany]
    | false =>
      rw [withActiveSession_of_dangling
        (fun sid2 hs2 => by rw [hs] at hs2; cases hs2; exact hany)]

theorem getNode_eq_find? {s : Store} {sess : ConversationSession}
    (h : getActiveSession s = some sess) (nid : Nat) :
    getNode s nid = sess.canvas.nodes.find? (fun n => n.id == nid) := by
  unfold getNode getActiveCanvas
  rw [h]
  exact rfl

theorem getNode_of_none {s : Store} (h : getActiveSession s = none) (nid : Nat) :
    getNode s nid = none := by
  unfold getNode getActiveCanvas
  rw [h]
  exact rfl

/-! ### Write-action specifications over the active session -/

theorem any_of_find?_eq_some {α : Type} {p : α → Bool} {l : List α} {a : α}
    (h : l.find? p = some a) : l.any p = true :=
  List.any_eq_true.mpr ⟨a, List.mem_of_find?_eq_some h, List.find?_some h⟩

theorem updateNodeSess_id (nodeId : Nat) (u : NodeUpdates)
    (sess : ConversationSession) : (updateNodeSess nodeId u sess).id = sess.id := by
  unfold updateNodeSess
  split
  · rfl
  · rfl

theorem getActiveSession_addNode {s : Store} {sess : ConversationSession}
    (h : getActiveSession s = some sess) (node : ConversationNode) :
    getActiveSession (addNode s node) = some (addNodeSess node sess) :=
  getActiveSession_withActiveSession h (fun _ => rfl)

theorem getActiveSession_addEdge {s : Store} {sess : ConversationSession}
    (h : getActiveSession s = some sess) (edge : ConversationEdge) :
    getActiveSession (addEdge s edge) = some (addEdgeSess edge sess) :=
  getActiveSession_withActiveSession h (fun _ => rfl)

theorem getActiveSession_updateNode {s : Store} {sess : ConversationSession}
    (h : getActiveSession s = some sess) (nodeId : Nat) (u : NodeUpdates) :
    getActiveSession (updateNode s nodeId u) = some (updateNodeSess nodeId u sess) :=
  getActiveSession_withActiveSession h (fun x => updateNodeSess_id nodeId u x)

theorem getActiveSession_removeNode {s : Store} {sess : ConversationSession}
    (h : getActiveSession s = some sess) (nodeId : Nat) :
    getActiveSession (removeNode s nodeId) = some (removeNodeSess nodeId sess) :=
  getActiveSession_withActiveSession h (fun _ => rfl)

theorem getActiveSession_removeEdge {s : Store} {sess : ConversationSession}
    (h : getActiveSession s = some sess) (edgeId : Nat) :
    getActiveSession (removeEdge s edgeId) = some (removeEdgeSess edgeId sess) :=
  getActiveSession_withActiveSession h (fun _ => rfl)

/-- `getActiveSession` ignores the id counter. -/
theorem getActiveSession_set_nextId (s : Store) (n : Nat) :
    getActiveSession { s with nextId := n } = getActiveSession s := rfl

theorem getNodeConversation_set_nextId (s : Store) (n : Nat) (nid : Nat) :
    getNodeConversation { s with nextId := n } nid = getNodeConversation s nid := rfl

theorem getActiveSession_startStreaming (s : Store) (nid : Nat) :
    getActiveSession (startStreaming s nid) = getActiveSession s := rfl

theorem getActiveSession_updateStreamingText (s : Store) (t : String) :
    getActiveSession (updateStreamingText s t) = getActiveSession s := rfl

theorem getNode_startStreaming (s : Store) (nid m : Nat) :
    getNode (startStreaming s nid) m = getNode s m := rfl

theorem getNode_updateStreamingText (s : Store) (t : String) (m : Nat) :
    getNode (updateStreamingText s t) m = getNode s m := rfl

/-- `updateNode` with an id-free payload (the shape every repository caller
passes) on a node that resolves rewrites exactly that node. -/
theorem getNode_updateNode {s : Store} {sess : ConversationSession}
    {node : ConversationNode} {nid : Nat}
    (h : getActiveSession s = some sess)
    (hn : getNode s nid = some node) (u : NodeUpdates) (huid : u.id = none) :
    getNode (updateNode s nid u) nid = some (applyUpdates node u) := by
  have hfind : sess.canvas.nodes.find? (fun n => n.id == nid) = some node := by
    rw [← getNode_eq_find? h]; exact hn
  have hany := any_of_find?_eq_some hfind
  rw [getNode_eq_find? (getActiveSession_updateNode h nid u)]
  unfold updateNodeSess
  rw [if_pos hany]
  have hp := List.find?_some hfind
  have hid : ((applyUpdates node u).id == nid) = true := by
    show ((u.id.getD node.id) == nid) = true
    rw [huid]
    exact hp
  exact find?_updateFirst hfind hid

/-! ### Streaming specifications -/

theorem finishStreaming_commit {s : Store} {nid : Nat} {t : String}
    (hnid : s.streamingState.nodeId = some nid)
    (ht : s.streamingState.currentText = t) (htne : ¬ t = "") :
    finishStreaming s =
      { commitAiResponse s nid (some t) with streamingState := initialStreamingState } := by
  unfold finishStreaming
  rw [hnid, ht]
  simp [htne]

theorem commitAiResponse_getNode {s : Store} {sess : ConversationSession}
    {node : ConversationNode} {nid : Nat}
    (h : getActiveSession s = some sess)
    (hn : getNode s nid = some node) (t : Option String) :
    getNode (commitAiResponse s nid t) nid =
      some { node with currentExchange :=
        { node.currentExchange with aiResponse := t } } := by
  unfold commitAiResponse
  rw [hn]
  exact getNode_updateNode h hn _ rfl

theorem commitAiResponse_getActiveSession {s : Store} {sess : ConversationSession}
    {node : ConversationNode} {nid : Nat}
    (h : getActiveSession s = some sess)
    (hn : getNode s nid = some node) (t : Option String) :
    getActiveSession (commitAiResponse s nid t) =
      some (updateNodeSess nid
        (exchangeUpdate { node.currentExchange with aiResponse := t }) sess) := by
  unfold commitAiResponse
  rw [hn]
  exact getActiveSession_updateNode h nid _

theorem commitAiResponse_streamingState (s : Store) (nid : Nat) (t : Option String) :
    (commitAiResponse s nid t).streamingState = s.streamingState := by
  unfold commitAiResponse
  cases hn : getNode s nid with
  | none => rfl
  | some node => exact withActiveSession_streamingState s _

/-! ### Concrete fixtures -/

/-- A store holding one freshly created, empty session (session id 0,
canvas id 1, `nextId` 2). -/
def demoStore : Store := (createSession initialStore "t").1

/-- `demoStore` after creating one root contextual node (node id 2). -/
def demoStoreNode : Store :=
  (createContextualNode demoStore "hi" none none none none).1

/-- `demoStoreNode` while node 2 is streaming with accumulated buffer
`"buffered"`. -/
def bufferedStreamingStore : Store :=
  updateStreamingText (startStreaming demoStoreNode 2) "buffered"

/-- A persisted state with one session, as a migration input. -/
def demoPersistedState : PersistedState :=
  { sessions := demoStoreNode.sessions
    activeSessionId := demoStoreNode.activeSessionId
    activeNodeId := none
    streamingState := initialStreamingState
    textSelection := none }

/-! ### C9 -/

/-- C9: `migrate` discards any persisted state whose stored schema version is
older than the current version 4, returning the empty initial state (no
sessions, no active session or node, idle streaming state, no text
selection); a state stored at the current version is returned unchanged. -/
theorem migrate_wipes_old_versions (ps : PersistedState) (v : Int) :
    (v < 4 → migrate ps v = emptyPersistedState) ∧ migrate ps 4 = ps := by
  constructor
  · intro hv
    simp [migrate, hv]
  · simp [migrate]

/-- Witness for C9 at version 3 and version 4 on a non-empty state. -/
theorem migrate_wipes_old_versions_witness :
    migrate demoPersistedState 3 = emptyPersistedState ∧
    migrate demoPersistedState 4 = demoPersistedState :=
  ⟨(migrate_wipes_old_versions demoPersistedState 3).1 (by decide),
   (migrate_wipes_old_versions demoPersistedState 4).2⟩

/-! ### C10 -/

/-- Helper: without a resolvable active session, `createContextualNode`
returns the fresh id but registers nothing. -/
theorem createContextualNode_inactive
    (s : Store) (h : getActiveSession s = none)
    (u : String) (pid : Option Nat) (q : Option String) (src : Option Nat)
    (pos : Option Pos) :
    (createContextualNode s u pid q src pos).2 = s.nextId ∧
    (createContextualNode s u pid q src pos).1.sessions = s.sessions ∧
    getNode (createContextualNode s u pid q src pos).1
      (createContextualNode s u pid q src pos).2 = none := by
  have h0 : getActiveSession { s with nextId := s.nextId + 1 } = none := h
  cases pid with
  | none =>
    have hadd : ∀ node, addNode { s with nextId := s.nextId + 1 } node =
        { s with nextId := s.nextId + 1 } :=
      fun node => withActiveSession_of_none h0
    refine ⟨rfl, ?_, ?_⟩
    · simp only [createContextualNode, hadd]
    · simp only [createContextualNode, hadd]
      exact getNode_of_none h0 _
  | some pidv =>
    have hadd : ∀ node, addNode { s with nextId := s.nextId + 1 } node =
        { s with nextId := s.nextId + 1 } :=
      fun node => withActiveSession_of_none h0
    have h1 : getActiveSession { s with nextId := s.nextId + 2 } = none := h
    have haddE : ∀ e, addEdge { s with nextId := s.nextId + 2 } e =
        { s with nextId := s.nextId + 2 } :=
      fun e => withActiveSession_of_none h1
    refine ⟨rfl, ?_, ?_⟩
    · simp only [createContextualNode, hadd, haddE]
    · simp only [createContextualNode, hadd, haddE]
      exact getNode_of_none h1 _

/-- C10: when no active session is set, or the active session id does not
resolve, `createContextualNode` still returns the freshly generated node id,
but registers nothing: the session list (hence every canvas and all session
metadata) is unchanged, and `getNode` of the returned id yields `null`. -/
theorem createContextualNode_no_active_session
    (s : Store) (h : getActiveSession s = none)
    (u : String) (pid : Option Nat) (q : Option String) (src : Option Nat)
    (pos : Option Pos) :
    (createContextualNode s u pid q src pos).2 = s.nextId ∧
    (createContextualNode s u pid q src pos).1.sessions = s.sessions ∧
    getNode (createContextualNode s u pid q src pos).1
      (createContextualNode s u pid q src pos).2 = none :=
  createContextualNode_inactive s h u pid q src pos

/-- Witness for C10 on the empty store (no session exists at all). -/
theorem createContextualNode_no_active_session_witness :
    (createContextualNode initialStore "hello" (some 7) (some "q") none none).2 =
      initialStore.nextId ∧
    (createContextualNode initialStore "hello" (some 7) (some "q") none none).1.sessions =
      initialStore.sessions ∧
    getNode (createContextualNode initialStore "hello" (some 7) (some "q") none none).1
      (createContextualNode initialStore "hello" (some 7) (some "q") none none).2 = none :=
  createContextualNode_no_active_session initialStore rfl "hello" (some 7) (some "q")
    none none

/-! ### C3 -/

/-- C3 counterexample: with node 2 streaming and a non-empty buffer
`"buffered"`, `startStreaming 99` leaves node 2's
`currentExchange.aiResponse` untouched (still the empty string, not the
buffer) and activates streaming for 99 with an empty buffer — the prior
buffer is silently dropped, not committed. -/
theorem startStreaming_drops_buffer_counterexample :
    bufferedStreamingStore.streamingState =
      { isStreaming := true, currentText := "buffered", nodeId := some 2 } ∧
    (getNode (startStreaming bufferedStreamingStore 99) 2).map
      (fun n => n.currentExchange.aiResponse) = some (some "") ∧
    (getNode (startStreaming bufferedStreamingStore 99) 2).map
      (fun n => n.currentExchange.aiResponse) ≠ some (some "buffered") ∧
    (startStreaming bufferedStreamingStore 99).streamingState =
      { isStreaming := true, currentText := "", nodeId := some 99 } := by
  refine ⟨rfl, by decide, by decide, rfl⟩

/-- C3 amended: `startStreaming(X)` while the state is streaming for node `Y`
with a non-empty buffer `b` does not commit `b` anywhere: every session (so
`Y`'s node) is unchanged and the streaming state is simply overwritten to be
active for `X` with an empty buffer. -/
theorem startStreaming_overwrites (s : Store) (y x : Nat) (b : String)
    (_hst : s.streamingState =
      { isStreaming := true, currentText := b, nodeId := some y })
    (_hb : b ≠ "") :
    (startStreaming s x).sessions = s.sessions ∧
    (∀ nid, getNode (startStreaming s x) nid = getNode s nid) ∧
    (startStreaming s x).streamingState =
      { isStreaming := true, currentText := "", nodeId := some x } :=
  ⟨rfl, fun _ => rfl, rfl⟩

/-- Witness for C3 amended on the concrete buffered store. -/
theorem startStreaming_overwrites_witness :
    (startStreaming bufferedStreamingStore 99).sessions =
      bufferedStreamingStore.sessions ∧
    (∀ nid, getNode (startStreaming bufferedStreamingStore 99) nid =
      getNode bufferedStreamingStore nid) ∧
    (startStreaming bufferedStreamingStore 99).streamingState =
      { isStreaming := true, currentText := "", nodeId := some 99 } :=
  startStreaming_overwrites bufferedStreamingStore 2 99 "buffered" rfl (by decide)

/-! ### C2 -/

/-- The C2 run with the literal chunks passed to `updateStreamingText`. -/
def literalChunksRun : Store :=
  finishStreaming (updateStreamingText (updateStreamingText (updateStreamingText
    (startStreaming demoStoreNode 2) "Hello") " ") "world")

/-- C2 counterexample: `updateStreamingText` replaces the buffer instead of
appending, so `startStreaming(2)`, `updateStreamingText` with `"Hello"`,
`" "`, `"world"`, then `finishStreaming()` leaves node 2's
`currentExchange.aiResponse` equal to `"world"`, not `"Hello world"`. -/
theorem updateStreamingText_replaces_counterexample :
    (getNode literalChunksRun 2).map (fun n => n.currentExchange.aiResponse) =
      some (some "world") ∧
    (getNode literalChunksRun 2).map (fun n => n.currentExchange.aiResponse) ≠
      some (some "Hello world") ∧
    literalChunksRun.streamingState = initialStreamingState := by
  refine ⟨by decide, by decide, by decide⟩

/-- C2 amended: `updateStreamingText` sets the buffer to its argument
(replace, not append).  Passing the accumulated text `"Hello"`, `"Hello "`,
`"Hello world"` (as the orchestration layer does) commits `"Hello world"`
into the node; passing the literal chunks `"Hello"`, `" "`, `"world"`
commits only `"world"`.  In both runs the streaming state afterwards reads
back idle with an empty buffer and a null node id. -/
theorem streaming_buffer_commit (s : Store) (sess : ConversationSession)
    (n : Nat) (node : ConversationNode)
    (h : getActiveSession s = some sess)
    (hn : getNode s n = some node) :
    (getNode (finishStreaming (updateStreamingText (updateStreamingText
        (updateStreamingText (startStreaming s n) "Hello") "Hello ") "Hello world")) n =
      some { node with currentExchange :=
        { node.currentExchange with aiResponse := some "Hello world" } } ∧
      (finishStreaming (updateStreamingText (updateStreamingText
        (updateStreamingText (startStreaming s n) "Hello") "Hello ") "Hello world")).streamingState =
        initialStreamingState) ∧
    (getNode (finishStreaming (updateStreamingText (updateStreamingText
        (updateStreamingText (startStreaming s n) "Hello") " ") "world")) n =
      some { node with currentExchange :=
        { node.currentExchange with aiResponse := some "world" } } ∧
      (finishStreaming (updateStreamingText (updateStreamingText
        (updateStreamingText (startStreaming s n) "Hello") " ") "world")).streamingState =
        initialStreamingState) := by
  constructor
  · set s3 := updateStreamingText (updateStreamingText
      (updateStreamingText (startStreaming s n) "Hello") "Hello ") "Hello world" with hs3
    have h3 : getActiveSession s3 = some sess := h
    have hn3 : getNode s3 n = some node := hn
    have hfin := @finishStreaming_commit s3 n "Hello world" rfl rfl (by decide)
    rw [hfin]
    constructor
    · have := commitAiResponse_getNode h3 hn3 (some "Hello world")
      exact this
    · rfl
  · set s3 := updateStreamingText (updateStreamingText
      (updateStreamingText (startStreaming s n) "Hello") " ") "world" with hs3
    have h3 : getActiveSession s3 = some sess := h
    have hn3 : getNode s3 n = some node := hn
    have hfin := @finishStreaming_commit s3 n "world" rfl rfl (by decide)
    rw [hfin]
    constructor
    · have := commitAiResponse_getNode h3 hn3 (some "world")
      exact this
    · rfl

/-! ### `createContextualNode` characterisations -/

theorem commitAiResponse_nextId (s : Store) (nid : Nat) (t : Option String) :
    (commitAiResponse s nid t).nextId = s.nextId := by
  unfold commitAiResponse
  cases hn : getNode s nid with
  | none => rfl
  | some node => exact withActiveSession_nextId s _

theorem addNode_nextId (s : Store) (node : ConversationNode) :
    (addNode s node).nextId = s.nextId :=
  withActiveSession_nextId s _

theorem addEdge_nextId (s : Store) (e : ConversationEdge) :
    (addEdge s e).nextId = s.nextId :=
  withActiveSession_nextId s _

theorem addNode_streamingState (s : Store) (node : ConversationNode) :
    (addNode s node).streamingState = s.streamingState :=
  withActiveSession_streamingState s _

theorem addEdge_streamingState (s : Store) (e : ConversationEdge) :
    (addEdge s e).streamingState = s.streamingState :=
  withActiveSession_streamingState s _

/-- `createContextualNode` with no parent, under an active session. -/
theorem createContextualNode_root (s : Store) (sess : ConversationSession)
    (h : getActiveSession s = some sess) (u : String) (q : Option String)
    (src : Option Nat) (pos : Option Pos) :
    (createContextualNode s u none q src pos).2 = s.nextId ∧
    (createContextualNode s u none q src pos).1.nextId = s.nextId + 1 ∧
    (createContextualNode s u none q src pos).1.streamingState = s.streamingState ∧
    getActiveSession (createContextualNode s u none q src pos).1 =
      some (addNodeSess
        { id := s.nextId
          parentId := none
          messages := []
          currentExchange :=
            { userMessage := jsTrim u
              aiResponse := some ""
              quotedText := orUndefined q
              sourceNodeId := src }
          position := pos.getD { x := 0, y := 0 } } sess) := by
  have h0 : getActiveSession { s with nextId := s.nextId + 1 } = some sess := h
  exact ⟨rfl, withActiveSession_nextId _ _, withActiveSession_streamingState _ _,
    getActiveSession_addNode h0 _⟩

/-- `createContextualNode` with a parent id, under an active session: the
node (carrying the parent-conversation snapshot) is appended and one
parent→child edge is appended, typed by the truthiness of `quotedText`. -/
theorem createContextualNode_with_parent (s : Store) (sess : ConversationSession)
    (h : getActiveSession s = some sess) (u : String) (pid : Nat)
    (q : Option String) (src : Option Nat) (pos : Option Pos) :
    (createContextualNode s u (some pid) q src pos).2 = s.nextId ∧
    (createContextualNode s u (some pid) q src pos).1.nextId = s.nextId + 2 ∧
    (createContextualNode s u (some pid) q src pos).1.streamingState =
      s.streamingState ∧
    getActiveSession (createContextualNode s u (some pid) q src pos).1 =
      some (addEdgeSess
        { id := s.nextId + 1
          source := pid
          target := s.nextId
          type := if strTruthy q then EdgeType.branch else EdgeType.default
          animated := strTruthy q }
        (addNodeSess
          { id := s.nextId
            parentId := some pid
            messages := getNodeConversation { s with nextId := s.nextId + 1 } pid
            currentExchange :=
              { userMessage := jsTrim u
                aiResponse := some ""
                quotedText := orUndefined q
                sourceNodeId := src }
            position := pos.getD { x := 0, y := 0 } } sess)) := by
  have h0 : getActiveSession { s with nextId := s.nextId + 1 } = some sess := h
  set nl : ConversationNode :=
    { id := s.nextId
      parentId := some pid
      messages := getNodeConversation { s with nextId := s.nextId + 1 } pid
      currentExchange :=
        { userMessage := jsTrim u
          aiResponse := some ""
          quotedText := orUndefined q
          sourceNodeId := src }
      position := pos.getD { x := 0, y := 0 } }
  have h1 := getActiveSession_addNode h0 nl
  have hnx : (addNode { s with nextId := s.nextId + 1 } nl).nextId = s.nextId + 1 :=
    addNode_nextId _ _
  have hc1 : (createContextualNode s u (some pid) q src pos).1 =
      addEdge { addNode { s with nextId := s.nextId + 1 } nl with
          nextId := (addNode { s with nextId := s.nextId + 1 } nl).nextId + 1 }
        { id := (addNode { s with nextId := s.nextId + 1 } nl).nextId
          source := pid
          target := s.nextId
          type := if strTruthy q then EdgeType.branch else EdgeType.default
          animated := strTruthy q } := rfl
  refine ⟨rfl, ?_, ?_, ?_⟩
  · rw [hc1]
    simp only [addEdge_nextId]
    rw [hnx]
  · rw [hc1]
    simp [addEdge_streamingState, addNode_streamingState]
  · rw [hc1, hnx]
    have h1x : getActiveSession { addNode { s with nextId := s.nextId + 1 } nl with
        nextId := s.nextId + 1 + 1 } = some (addNodeSess nl sess) := h1
    exact getActiveSession_addEdge h1x _

/-! ### C7 -/

/-- C7: `removeNode` removes the node and every edge whose source or target
equals the removed id; it does not touch either branch counter, so whenever
the canvas's and the session's branch counts are non-negative beforehand —
consistent with the edge list or not — they remain non-negative (indeed
unchanged) afterwards. -/
theorem removeNode_cascade (s : Store) (sess : ConversationSession) (nid : Nat)
    (h : getActiveSession s = some sess)
    (_hmem : nid ∈ sess.canvas.nodes.map (fun n => n.id))
    (hc : 0 ≤ sess.canvas.metadata.branchCount)
    (hm : 0 ≤ sess.metadata.branchCount) :
    getActiveSession (removeNode s nid) = some (removeNodeSess nid sess) ∧
    (removeNodeSess nid sess).canvas.nodes =
      sess.canvas.nodes.filter (fun n => n.id != nid) ∧
    (removeNodeSess nid sess).canvas.edges =
      sess.canvas.edges.filter (fun e => e.source != nid && e.target != nid) ∧
    (∀ n ∈ (removeNodeSess nid sess).canvas.nodes, n.id ≠ nid) ∧
    (∀ e ∈ (removeNodeSess nid sess).canvas.edges,
      e.source ≠ nid ∧ e.target ≠ nid) ∧
    (removeNodeSess nid sess).canvas.metadata.branchCount =
      sess.canvas.metadata.branchCount ∧
    (removeNodeSess nid sess).metadata.branchCount = sess.metadata.branchCount ∧
    0 ≤ (removeNodeSess nid sess).canvas.metadata.branchCount ∧
    0 ≤ (removeNodeSess nid sess).metadata.branchCount := by
  refine ⟨getActiveSession_removeNode h nid, rfl, rfl, ?_, ?_, rfl, rfl, hc, hm⟩
  · intro n hn
    have := List.mem_filter.mp hn
    simpa using this.2
  · intro e he
    have := List.mem_filter.mp he
    have h2 := this.2
    simp only [Bool.and_eq_true, bne_iff_ne, ne_eq] at h2
    exact h2

/-! ### C4 -/

/-- C4: under an active session, `createContextualNode` with a parent and a
non-empty `quotedText` appends exactly one edge typed `branch` from the
parent to the fresh child and bumps both the canvas's and the session's
`branchCount` by exactly 1; with a parent and a falsy `quotedText`
(`undefined` or `""`) it appends one edge typed `default` and leaves both
branch counters unchanged, only the node count (and message total)
changing. -/
theorem createContextualNode_branch_counters (s : Store)
    (sess : ConversationSession) (h : getActiveSession s = some sess)
    (u : String) (pid : Nat) (q : String) (hq : q ≠ "") (src : Option Nat)
    (pos : Option Pos) :
    (∃ sess2,
      getActiveSession (createContextualNode s u (some pid) (some q) src pos).1 =
        some sess2 ∧
      sess2.canvas.edges = sess.canvas.edges ++
        [{ id := s.nextId + 1, source := pid, target := s.nextId,
           type := EdgeType.branch, animated := true }] ∧
      sess2.canvas.metadata.branchCount = sess.canvas.metadata.branchCount + 1 ∧
      sess2.metadata.branchCount = sess.metadata.branchCount + 1 ∧
      sess2.canvas.metadata.nodeCount = (sess.canvas.nodes.length : Int) + 1 ∧
      sess2.canvas.nodes.length = sess.canvas.nodes.length + 1) ∧
    (∀ q2 : Option String, strTruthy q2 = false →
      ∃ sess2,
        getActiveSession (createContextualNode s u (some pid) q2 src pos).1 =
          some sess2 ∧
        sess2.canvas.edges = sess.canvas.edges ++
          [{ id := s.nextId + 1, source := pid, target := s.nextId,
             type := EdgeType.default, animated := false }] ∧
        sess2.canvas.metadata.branchCount = sess.canvas.metadata.branchCount ∧
        sess2.metadata.branchCount = sess.metadata.branchCount ∧
        sess2.canvas.metadata.nodeCount = (sess.canvas.nodes.length : Int) + 1 ∧
        sess2.canvas.nodes.length = sess.canvas.nodes.length + 1) := by
  constructor
  · have key := (createContextualNode_with_parent s sess h u pid (some q) src pos).2.2.2
    have hqt : strTruthy (some q) = true := by simp [strTruthy, hq]
    rw [hqt] at key
    refine ⟨_, key, ?_, ?_, ?_, ?_, ?_⟩
    · simp [addEdgeSess, addNodeSess]
    · simp [addEdgeSess, addNodeSess]
    · simp [addEdgeSess, addNodeSess]
    · simp [addEdgeSess, addNodeSess]
    · simp [addEdgeSess, addNodeSess]
  · intro q2 hq2
    have key := (createContextualNode_with_parent s sess h u pid q2 src pos).2.2.2
    rw [hq2] at key
    refine ⟨_, key, ?_, ?_, ?_, ?_, ?_⟩
    · simp [addEdgeSess, addNodeSess]
    · simp [addEdgeSess, addNodeSess]
    · simp [addEdgeSess, addNodeSess]
    · simp [addEdgeSess, addNodeSess]
    · simp [addEdgeSess, addNodeSess]

/-! ### Fixture values and remaining witnesses -/

/-- The root node created in `demoStoreNode` (value of node id 2). -/
def demoNode : ConversationNode :=
  { id := 2
    parentId := none
    messages := []
    currentExchange :=
      { userMessage := "hi", aiResponse := some "", quotedText := none,
        sourceNodeId := none }
    position := { x := 0, y := 0 } }

/-- The active session of `demoStore` (freshly created, empty canvas). -/
def demoEmptySession : ConversationSession :=
  { id := 0
    title := "t"
    canvas :=
      { id := 1, title := "t", nodes := [], edges := [],
        metadata := { nodeCount := 0, branchCount := 0 } }
    metadata := { totalMessages := 0, branchCount := 0 } }

/-- The active session of `demoStoreNode`. -/
def demoSession : ConversationSession :=
  { id := 0
    title := "t"
    canvas :=
      { id := 1, title := "t", nodes := [demoNode], edges := [],
        metadata := { nodeCount := 1, branchCount := 0 } }
    metadata := { totalMessages := 1, branchCount := 0 } }

/-- Witness for C2 amended: the accumulated-text run on the concrete store
commits `"Hello world"` into node 2. -/
theorem streaming_buffer_commit_witness :
    getNode (finishStreaming (updateStreamingText (updateStreamingText
        (updateStreamingText (startStreaming demoStoreNode 2) "Hello") "Hello ")
        "Hello world")) 2 =
      some { demoNode with currentExchange :=
        { demoNode.currentExchange with aiResponse := some "Hello world" } } :=
  (streaming_buffer_commit demoStoreNode demoSession 2 demoNode (by decide)
    (by decide)).1.1

/-- Witness for C7 on the concrete store: removing node 2. -/
theorem removeNode_cascade_witness :
    getActiveSession (removeNode demoStoreNode 2) = some (removeNodeSess 2 demoSession) ∧
    (removeNodeSess 2 demoSession).canvas.nodes =
      demoSession.canvas.nodes.filter (fun n => n.id != 2) ∧
    (removeNodeSess 2 demoSession).canvas.edges =
      demoSession.canvas.edges.filter (fun e => e.source != 2 && e.target != 2) ∧
    (∀ n ∈ (removeNodeSess 2 demoSession).canvas.nodes, n.id ≠ 2) ∧
    (∀ e ∈ (removeNodeSess 2 demoSession).canvas.edges,
      e.source ≠ 2 ∧ e.target ≠ 2) ∧
    (removeNodeSess 2 demoSession).canvas.metadata.branchCount =
      demoSession.canvas.metadata.branchCount ∧
    (removeNodeSess 2 demoSession).metadata.branchCount =
      demoSession.metadata.branchCount ∧
    0 ≤ (removeNodeSess 2 demoSession).canvas.metadata.branchCount ∧
    0 ≤ (removeNodeSess 2 demoSession).metadata.branchCount :=
  removeNode_cascade demoStoreNode demoSession 2 (by decide) (by decide) (by decide)
    (by decide)

/-- Witness for C4 on the concrete store: a branch from node 2 with quoted
text `"hi"` bumps both branch counters by exactly 1. -/
theorem createContextualNode_branch_counters_witness :
    ∃ sess2,
      getActiveSession
        (createContextualNode demoStoreNode "follow" (some 2) (some "hi") (some 2)
          none).1 = some sess2 ∧
      sess2.canvas.edges = demoSession.canvas.edges ++
        [{ id := demoStoreNode.nextId + 1, source := 2, target := demoStoreNode.nextId,
           type := EdgeType.branch, animated := true }] ∧
      sess2.canvas.metadata.branchCount =
        demoSession.canvas.metadata.branchCount + 1 ∧
      sess2.metadata.branchCount = demoSession.metadata.branchCount + 1 ∧
      sess2.canvas.metadata.nodeCount =
        (demoSession.canvas.nodes.length : Int) + 1 ∧
      sess2.canvas.nodes.length = demoSession.canvas.nodes.length + 1 :=
  (createContextualNode_branch_counters demoStoreNode demoSession (by decide)
    "follow" 2 "hi" (by decide) (some 2) none).1

/-! ### C6 -/

/-- C6 counterexample: `removeNode` applied to a node id that does not occur
in the canvas is not a silent no-op: on the concrete one-node store it leaves
the node list intact but decrements the canvas `nodeCount` from 1 to 0 and
the session `totalMessages` from 1 to 0, changing the store. -/
theorem removeNode_missing_counterexample :
    (getActiveCanvas demoStoreNode).map (fun c => c.metadata.nodeCount) = some 1 ∧
    (getActiveCanvas (removeNode demoStoreNode 999)).map
      (fun c => c.metadata.nodeCount) = some 0 ∧
    (getActiveCanvas (removeNode demoStoreNode 999)).map
      (fun c => c.nodes.length) = some 1 ∧
    (getActiveSession (removeNode demoStoreNode 999)).map
      (fun sess => sess.metadata.totalMessages) = some 0 ∧
    removeNode demoStoreNode 999 ≠ demoStoreNode := by
  refine ⟨by decide, by decide, by decide, by decide, by decide⟩

/-- C6 amended: every read returns `null`/`[]` on a missing node or session
and never throws; every write is a no-op when no active session resolves;
`updateNode` on a missing node and `removeEdge` on a missing edge id (with
non-negative branch counters) leave the store exactly unchanged; but
`removeNode` on a missing node id — while leaving the node list unchanged —
still sets the canvas `nodeCount` to `nodes.length - 1` and decrements the
session message total, so it is not a no-op. -/
theorem store_ops_degrade :
    (∀ s : Store, getActiveSession s = none →
      getActiveCanvas s = none ∧
      (∀ nid, getNode s nid = none ∧ getNodeHistory s nid = [] ∧
        getNodeConversation s nid = []) ∧
      (∀ node, addNode s node = s) ∧
      (∀ nid u, updateNode s nid u = s) ∧
      (∀ nid, removeNode s nid = s) ∧
      (∀ e, addEdge s e = s) ∧
      (∀ eid, removeEdge s eid = s)) ∧
    (∀ s : Store, ∀ sess : ConversationSession, ∀ nid : Nat,
      getActiveSession s = some sess →
      sess.canvas.nodes.find? (fun n => n.id == nid) = none →
      getNode s nid = none ∧ getNodeHistory s nid = [] ∧
      getNodeConversation s nid = [] ∧
      (∀ u, updateNode s nid u = s) ∧
      getActiveSession (removeNode s nid) = some (removeNodeSess nid sess) ∧
      (removeNodeSess nid sess).canvas.nodes = sess.canvas.nodes ∧
      (removeNodeSess nid sess).canvas.metadata.nodeCount =
        (sess.canvas.nodes.length : Int) - 1 ∧
      (removeNodeSess nid sess).metadata.totalMessages =
        max 0 (sess.metadata.totalMessages - 1)) ∧
    (∀ s : Store, ∀ sess : ConversationSession, ∀ eid : Nat,
      getActiveSession s = some sess →
      sess.canvas.edges.find? (fun e => e.id == eid) = none →
      0 ≤ sess.canvas.metadata.branchCount →
      0 ≤ sess.metadata.branchCount →
      removeEdge s eid = s) := by
  refine ⟨?_, ?_, ?_⟩
  · intro s h
    refine ⟨?_, ?_, fun node => withActiveSession_of_none h,
      fun nid u => withActiveSession_of_none h,
      fun nid => withActiveSession_of_none h,
      fun e => withActiveSession_of_none h,
      fun eid => withActiveSession_of_none h⟩
    · unfold getActiveCanvas
      rw [h]
      exact rfl
    · intro nid
      refine ⟨getNode_of_none h nid, ?_, ?_⟩
      · unfold getNodeHistory
        rw [getNode_of_none h nid]
      · unfold getNodeConversation
        rw [getNode_of_none h nid]
  · intro s sess nid h hfind
    obtain ⟨sid, hsid, hfindS⟩ := activeSession_destruct h
    have hgn : getNode s nid = none := by
      rw [getNode_eq_find? h]
      exact hfind
    have hanyn : sess.canvas.nodes.any (fun n => n.id == nid) = false := by
      rw [List.any_eq_false]
      intro x hx hpx
      exact absurd (List.find?_eq_none.mp hfind x hx) (by simp [hpx])
    have hfilter : sess.canvas.nodes.filter (fun n => n.id != nid) =
        sess.canvas.nodes := by
      rw [List.filter_eq_self]
      intro n hn
      have := List.find?_eq_none.mp hfind n hn
      simpa using this
    refine ⟨hgn, ?_, ?_, ?_, getActiveSession_removeNode h nid, ?_, rfl, rfl⟩
    · unfold getNodeHistory
      rw [hgn]
    · unfold getNodeConversation
      rw [hgn]
    · intro u
      have hsessEq : updateNodeSess nid u sess = sess := by
        unfold updateNodeSess
        rw [if_neg]
        simp [hanyn]
      unfold updateNode
      rw [withActiveSession_eq_update hsid (anyActive_of_find? hfindS),
        updateFirst_eq_self hfindS hsessEq]
    · show sess.canvas.nodes.filter (fun n => n.id != nid) = sess.canvas.nodes
      exact hfilter
  · intro s sess eid h hfindE hc hm
    obtain ⟨sid, hsid, hfindS⟩ := activeSession_destruct h
    have hfilter : sess.canvas.edges.filter (fun e => e.id != eid) =
        sess.canvas.edges := by
      rw [List.filter_eq_self]
      intro e he
      have := List.find?_eq_none.mp hfindE e he
      simpa using this
    have hsessEq : removeEdgeSess eid sess = sess := by
      unfold removeEdgeSess
      rw [hfindE, hfilter]
      simp only [Int.sub_zero]
      rw [max_eq_right hc, max_eq_right hm]
    unfold removeEdge
    rw [withActiveSession_eq_update hsid (anyActive_of_find? hfindS),
      updateFirst_eq_self hfindS hsessEq]

/-- Witness for C6 amended: reads on the empty store, a no-op `updateNode`
and a no-op `removeEdge` on the concrete one-node store. -/
theorem store_ops_degrade_witness :
    getNode initialStore 5 = none ∧
    updateNode demoStoreNode 999 (exchangeUpdate demoNode.currentExchange) =
      demoStoreNode ∧
    removeEdge demoStoreNode 999 = demoStoreNode :=
  ⟨((store_ops_degrade.1 initialStore rfl).2.1 5).1,
   (store_ops_degrade.2.1 demoStoreNode demoSession 999 (by decide)
     (by decide)).2.2.2.1 _,
   store_ops_degrade.2.2 demoStoreNode demoSession 999 (by decide) (by decide)
     (by decide) (by decide)⟩

/-! ### C1 infrastructure -/

theorem find?_append_none {α : Type} {p : α → Bool} {l1 l2 : List α}
    (h : l1.find? p = none) : (l1 ++ l2).find? p = l2.find? p := by
  rw [List.find?_append, h]
  rfl

theorem find?_eq_none_of_lt {l : List ConversationNode} {k : Nat}
    (h : ∀ n ∈ l, n.id < k) : l.find? (fun n => n.id == k) = none := by
  rw [List.find?_eq_none]
  intro n hn
  simp [Nat.ne_of_lt (h n hn)]

theorem strTruthy_some_true {x : String} (hx : x ≠ "") :
    strTruthy (some x) = true := by simp [strTruthy, hx]

theorem strTruthy_some_false {x : String} (hx : x = "") :
    strTruthy (some x) = false := by simp [strTruthy, hx]

/-- Unfolding of `getNodeConversation` once the node lookup resolves. -/
theorem getNodeConversation_eq {s : Store} {nid : Nat} {node : ConversationNode}
    (h : getNode s nid = some node) :
    getNodeConversation s nid =
      (if node.currentExchange.userMessage ≠ "" then
        node.messages ++
          [{ role := Role.user
             content := node.currentExchange.userMessage
             quotedText := node.currentExchange.quotedText }]
       else node.messages) ++
      (if strTruthy node.currentExchange.aiResponse then
        [{ role := Role.assistant
           content := node.currentExchange.aiResponse.getD ""
           quotedText := none }]
       else []) := by
  unfold getNodeConversation
  rw [h]
  show nodeConversation node = _
  unfold nodeConversation
  by_cases hu : node.currentExchange.userMessage = ""
  · rw [strTruthy_some_false hu]
    cases hr : strTruthy node.currentExchange.aiResponse <;> simp [hu, hr]
  · rw [strTruthy_some_true hu]
    cases hr : strTruthy node.currentExchange.aiResponse <;> simp [hu, hr]

/-- One exchange (user turn, then assistant turn) as it appears in a
reconstructed conversation. -/
def exchangeMsgs (u : String) (q : Option String) (r : String) : List ChatMessage :=
  [{ role := Role.user, content := u, quotedText := q },
   { role := Role.assistant, content := r, quotedText := none }]

/-- Stage lemma: a root `createContextualNode` followed by committing the
response `r` appends one fully materialised exchange node to the active
canvas. -/
theorem create_root_commit (s : Store) (sess : ConversationSession)
    (h : getActiveSession s = some sess)
    (hfresh : ∀ n ∈ sess.canvas.nodes, n.id < s.nextId)
    (u : String) (pos : Option Pos) (r : String) :
    (createContextualNode s u none none none pos).2 = s.nextId ∧
    ∃ sess2,
      getActiveSession (commitAiResponse (createContextualNode s u none none none pos).1
        (createContextualNode s u none none none pos).2 (some r)) = some sess2 ∧
      sess2.canvas.nodes = sess.canvas.nodes ++
        [{ id := s.nextId
           parentId := none
           messages := []
           currentExchange :=
             { userMessage := jsTrim u
               aiResponse := some r
               quotedText := none
               sourceNodeId := none }
           position := pos.getD { x := 0, y := 0 } }] ∧
      (commitAiResponse (createContextualNode s u none none none pos).1
        (createContextualNode s u none none none pos).2 (some r)).nextId =
        s.nextId + 1 := by
  obtain ⟨ha2, hanx, hast, hasess⟩ := createContextualNode_root s sess h u none none pos
  rw [ha2]
  refine ⟨rfl, ?_⟩
  have hfindA : ((addNodeSess
      { id := s.nextId
        parentId := none
        messages := []
        currentExchange :=
          { userMessage := jsTrim u
            aiResponse := some ""
            quotedText := orUndefined none
            sourceNodeId := none }
        position := pos.getD { x := 0, y := 0 } } sess).canvas.nodes).find?
        (fun n => n.id == s.nextId) = some
      { id := s.nextId
        parentId := none
        messages := []
        currentExchange :=
          { userMessage := jsTrim u
            aiResponse := some ""
            quotedText := orUndefined none
            sourceNodeId := none }
        position := pos.getD { x := 0, y := 0 } } := by
    have e : (addNodeSess
        { id := s.nextId
          parentId := none
          messages := []
          currentExchange :=
            { userMessage := jsTrim u
              aiResponse := some ""
              quotedText := orUndefined none
              sourceNodeId := none }
          position := pos.getD { x := 0, y := 0 } } sess).canvas.nodes =
        sess.canvas.nodes ++
          [{ id := s.nextId
             parentId := none
             messages := []
             currentExchange :=
               { userMessage := jsTrim u
                 aiResponse := some ""
                 quotedText := orUndefined none
                 sourceNodeId := none }
             position := pos.getD { x := 0, y := 0 } }] := rfl
    rw [e, find?_append_none (find?_eq_none_of_lt hfresh)]
    simp [List.find?]
  have hgnA : getNode (createContextualNode s u none none none pos).1 s.nextId =
      some { id := s.nextId
             parentId := none
             messages := []
             currentExchange :=
               { userMessage := jsTrim u
                 aiResponse := some ""
                 quotedText := orUndefined none
                 sourceNodeId := none }
             position := pos.getD { x := 0, y := 0 } } := by
    rw [getNode_eq_find? hasess]
    exact hfindA
  have hcommit := commitAiResponse_getActiveSession hasess hgnA (some r)
  refine ⟨_, hcommit, ?_, ?_⟩
  · unfold updateNodeSess
    rw [if_pos (any_of_find?_eq_some hfindA)]
    show updateFirst (fun n => n.id == s.nextId) _
      (sess.canvas.nodes ++
        [{ id := s.nextId
           parentId := none
           messages := []
           currentExchange :=
             { userMessage := jsTrim u
               aiResponse := some ""
               quotedText := orUndefined none
               sourceNodeId := none }
           position := pos.getD { x := 0, y := 0 } }]) = _
    rw [updateFirst_append_single (find?_eq_none_of_lt hfresh) (by simp)]
    rfl
  · rw [commitAiResponse_nextId, hanx]

/-- Stage lemma: a child `createContextualNode` followed by committing the
response `r` appends one fully materialised exchange node (carrying the
parent-conversation snapshot taken at creation time) to the active canvas. -/
theorem create_child_commit (s : Store) (sess : ConversationSession)
    (h : getActiveSession s = some sess)
    (hfresh : ∀ n ∈ sess.canvas.nodes, n.id < s.nextId)
    (u : String) (pid : Nat) (q : Option String) (src : Option Nat)
    (pos : Option Pos) (r : String) :
    (createContextualNode s u (some pid) q src pos).2 = s.nextId ∧
    ∃ sess2,
      getActiveSession (commitAiResponse
        (createContextualNode s u (some pid) q src pos).1
        (createContextualNode s u (some pid) q src pos).2 (some r)) = some sess2 ∧
      sess2.canvas.nodes = sess.canvas.nodes ++
        [{ id := s.nextId
           parentId := some pid
           messages := getNodeConversation s pid
           currentExchange :=
             { userMessage := jsTrim u
               aiResponse := some r
               quotedText := orUndefined q
               sourceNodeId := src }
           position := pos.getD { x := 0, y := 0 } }] ∧
      (commitAiResponse (createContextualNode s u (some pid) q src pos).1
        (createContextualNode s u (some pid) q src pos).2 (some r)).nextId =
        s.nextId + 2 := by
  obtain ⟨ha2, hanx, hast, hasess⟩ :=
    createContextualNode_with_parent s sess h u pid q src pos
  rw [ha2]
  refine ⟨rfl, ?_⟩
  have hfindB : ((addEdgeSess
      { id := s.nextId + 1
        source := pid
        target := s.nextId
        type := if strTruthy q then EdgeType.branch else EdgeType.default
        animated := strTruthy q }
      (addNodeSess
        { id := s.nextId
          parentId := some pid
          messages := getNodeConversation { s with nextId := s.nextId + 1 } pid
          currentExchange :=
            { userMessage := jsTrim u
              aiResponse := some ""
              quotedText := orUndefined q
              sourceNodeId := src }
          position := pos.getD { x := 0, y := 0 } } sess)).canvas.nodes).find?
        (fun n => n.id == s.nextId) = some
      { id := s.nextId
        parentId := some pid
        messages := getNodeConversation { s with nextId := s.nextId + 1 } pid
        currentExchange :=
          { userMessage := jsTrim u
            aiResponse := some ""
            quotedText := orUndefined q
            sourceNodeId := src }
        position := pos.getD { x := 0, y := 0 } } := by
    have e : (addEdgeSess
        { id := s.nextId + 1
          source := pid
          target := s.nextId
          type := if strTruthy q then EdgeType.branch else EdgeType.default
          animated := strTruthy q }
        (addNodeSess
          { id := s.nextId
            parentId := some pid
            messages := getNodeConversation { s with nextId := s.nextId + 1 } pid
            currentExchange :=
              { userMessage := jsTrim u
                aiResponse := some ""
                quotedText := orUndefined q
                sourceNodeId := src }
            position := pos.getD { x := 0, y := 0 } } sess)).canvas.nodes =
        sess.canvas.nodes ++
          [{ id := s.nextId
             parentId := some pid
             messages := getNodeConversation { s with nextId := s.nextId + 1 } pid
             currentExchange :=
               { userMessage := jsTrim u
                 aiResponse := some ""
                 quotedText := orUndefined q
                 sourceNodeId := src }
             position := pos.getD { x := 0, y := 0 } }] := rfl
    rw [e, find?_append_none (find?_eq_none_of_lt hfresh)]
    simp [List.find?]
  have hgnB : getNode (createContextualNode s u (some pid) q src pos).1 s.nextId =
      some { id := s.nextId
             parentId := some pid
             messages := getNodeConversation { s with nextId := s.nextId + 1 } pid
             currentExchange :=
               { userMessage := jsTrim u
                 aiResponse := some ""
                 quotedText := orUndefined q
                 sourceNodeId := src }
             position := pos.getD { x := 0, y := 0 } } := by
    rw [getNode_eq_find? hasess]
    exact hfindB
  have hcommit := commitAiResponse_getActiveSession hasess hgnB (some r)
  refine ⟨_, hcommit, ?_, ?_⟩
  · unfold updateNodeSess
    rw [if_pos (any_of_find?_eq_some hfindB)]
    show updateFirst (fun n => n.id == s.nextId) _
      (sess.canvas.nodes ++
        [{ id := s.nextId
           parentId := some pid
           messages := getNodeConversation { s with nextId := s.nextId + 1 } pid
           currentExchange :=
             { userMessage := jsTrim u
               aiResponse := some ""
               quotedText := orUndefined q
               sourceNodeId := src }
           position := pos.getD { x := 0, y := 0 } }]) = _
    rw [updateFirst_append_single (find?_eq_none_of_lt hfresh) (by simp)]
    rfl
  · rw [commitAiResponse_nextId, hanx]

/-! ### C1 -/

/-- The scenario of claim C1: node A created at the root and its response
committed; B created as child of A, response committed; C created as child of
B, response committed.  Returns the final store and the ids of A, B, C. -/
def chainC1 (s : Store) (uA uB uC rA rB rC : String) (qB qC : Option String)
    (srcB srcC : Option Nat) (pA pB pC : Option Pos) :
    Store × Nat × Nat × Nat :=
  let stepA := createContextualNode s uA none none none pA
  let sA := commitAiResponse stepA.1 stepA.2 (some rA)
  let stepB := createContextualNode sA uB (some stepA.2) qB srcB pB
  let sB := commitAiResponse stepB.1 stepB.2 (some rB)
  let stepC := createContextualNode sB uC (some stepB.2) qC srcC pC
  let sC := commitAiResponse stepC.1 stepC.2 (some rC)
  (sC, stepA.2, stepB.2, stepC.2)

/-- C1: for every chain A → B → C built by `createContextualNode` (A a root,
B created as child of A after A's response is committed, C as child of B
after B's is committed, C's own response then committed),
`getNodeConversation` of C is the concatenation of A's exchange, B's
exchange, and C's own exchange, in that order — and this value is unchanged
when `removeNode` is applied to A or to B after C's creation. -/
theorem conversation_chain_snapshot (s : Store) (sess : ConversationSession)
    (h : getActiveSession s = some sess)
    (hfresh : ∀ n ∈ sess.canvas.nodes, n.id < s.nextId)
    (uA uB uC rA rB rC : String) (qB qC : Option String)
    (srcB srcC : Option Nat) (pA pB pC : Option Pos)
    (huA : jsTrim uA ≠ "") (huB : jsTrim uB ≠ "") (huC : jsTrim uC ≠ "")
    (hrA : rA ≠ "") (hrB : rB ≠ "") (hrC : rC ≠ "") :
    getNodeConversation
        (chainC1 s uA uB uC rA rB rC qB qC srcB srcC pA pB pC).1
        (chainC1 s uA uB uC rA rB rC qB qC srcB srcC pA pB pC).2.2.2 =
      exchangeMsgs (jsTrim uA) none rA ++
        exchangeMsgs (jsTrim uB) (orUndefined qB) rB ++
        exchangeMsgs (jsTrim uC) (orUndefined qC) rC ∧
    getNodeConversation
        (removeNode (chainC1 s uA uB uC rA rB rC qB qC srcB srcC pA pB pC).1
          (chainC1 s uA uB uC rA rB rC qB qC srcB srcC pA pB pC).2.1)
        (chainC1 s uA uB uC rA rB rC qB qC srcB srcC pA pB pC).2.2.2 =
      exchangeMsgs (jsTrim uA) none rA ++
        exchangeMsgs (jsTrim uB) (orUndefined qB) rB ++
        exchangeMsgs (jsTrim uC) (orUndefined qC) rC ∧
    getNodeConversation
        (removeNode (chainC1 s uA uB uC rA rB rC qB qC srcB srcC pA pB pC).1
          (chainC1 s uA uB uC rA rB rC qB qC srcB srcC pA pB pC).2.2.1)
        (chainC1 s uA uB uC rA rB rC qB qC srcB srcC pA pB pC).2.2.2 =
      exchangeMsgs (jsTrim uA) none rA ++
        exchangeMsgs (jsTrim uB) (orUndefined qB) rB ++
        exchangeMsgs (jsTrim uC) (orUndefined qC) rC := by
  simp only [chainC1]
  -- Stage A: root node, committed.
  obtain ⟨ha2, sessA, hA, hnodesA, hnxA⟩ := create_root_commit s sess h hfresh uA pA rA
  rw [ha2] at hA hnxA ⊢
  set sA := commitAiResponse (createContextualNode s uA none none none pA).1
    s.nextId (some rA) with hsA
  have hfreshA : ∀ n ∈ sessA.canvas.nodes, n.id < s.nextId + 1 := by
    rw [hnodesA]
    intro n hn
    rcases List.mem_append.mp hn with h1 | h1
    · exact Nat.lt_succ_of_lt (hfresh n h1)
    · rw [List.mem_singleton] at h1
      subst h1
      exact Nat.lt_succ_self _
  have hfreshA2 : ∀ n ∈ sessA.canvas.nodes, n.id < sA.nextId := by
    rw [hnxA]
    exact hfreshA
  -- Conversation of A after the commit.
  have hgnA2 : getNode sA s.nextId = some
      { id := s.nextId
        parentId := none
        messages := []
        currentExchange :=
          { userMessage := jsTrim uA
            aiResponse := some rA
            quotedText := none
            sourceNodeId := none }
        position := pA.getD { x := 0, y := 0 } } := by
    rw [getNode_eq_find? hA, hnodesA,
      find?_append_none (find?_eq_none_of_lt hfresh)]
    simp [List.find?]
  have hconvA : getNodeConversation sA s.nextId =
      exchangeMsgs (jsTrim uA) none rA := by
    rw [getNodeConversation_eq hgnA2]
    simp [exchangeMsgs, huA, strTruthy_some_true hrA]
  -- Stage B: child of A, committed.
  obtain ⟨hb2, sessB, hB, hnodesB, hnxB⟩ :=
    create_child_commit sA sessA hA hfreshA2 uB s.nextId qB srcB pB rB
  rw [hnxA] at hb2 hnxB hnodesB
  rw [hb2] at hB hnxB ⊢
  rw [getNodeConversation_set_nextId, hconvA] at hnodesB
  set sB := commitAiResponse
    (createContextualNode sA uB (some s.nextId) qB srcB pB).1 (s.nextId + 1)
    (some rB) with hsB
  have hnxB2 : sB.nextId = s.nextId + 3 := by rw [hnxB]
  have hfreshB : ∀ n ∈ sessB.canvas.nodes, n.id < s.nextId + 3 := by
    rw [hnodesB]
    intro n hn
    rcases List.mem_append.mp hn with h1 | h1
    · have := hfreshA n h1
      omega
    · rw [List.mem_singleton] at h1
      subst h1
      show s.nextId + 1 < s.nextId + 3
      omega
  have hfreshB2 : ∀ n ∈ sessB.canvas.nodes, n.id < sB.nextId := by
    rw [hnxB2]
    exact hfreshB
  -- Conversation of B after the commit.
  have hgnB2 : getNode sB (s.nextId + 1) = some
      { id := s.nextId + 1
        parentId := some s.nextId
        messages := exchangeMsgs (jsTrim uA) none rA
        currentExchange :=
          { userMessage := jsTrim uB
            aiResponse := some rB
            quotedText := orUndefined qB
            sourceNodeId := srcB }
        position := pB.getD { x := 0, y := 0 } } := by
    rw [getNode_eq_find? hB, hnodesB,
      find?_append_none (find?_eq_none_of_lt hfreshA)]
    simp [List.find?]
  have hconvB : getNodeConversation sB (s.nextId + 1) =
      exchangeMsgs (jsTrim uA) none rA ++
        exchangeMsgs (jsTrim uB) (orUndefined qB) rB := by
    rw [getNodeConversation_eq hgnB2]
    simp [exchangeMsgs, huB, strTruthy_some_true hrB]
  -- Stage C: child of B, committed.
  obtain ⟨hc2, sessC, hC, hnodesC, hnxC⟩ :=
    create_child_commit sB sessB hB hfreshB2 uC (s.nextId + 1) qC srcC pC rC
  rw [hnxB2] at hc2 hnodesC
  rw [hc2] at hC ⊢
  rw [getNodeConversation_set_nextId, hconvB] at hnodesC
  set sC := commitAiResponse
    (createContextualNode sB uC (some (s.nextId + 1)) qC srcC pC).1
    (s.nextId + 3) (some rC) with hsC
  have hfreshBC : ∀ n ∈ sessB.canvas.nodes, n.id < s.nextId + 3 := hfreshB
  -- Node C after the commit.
  have hgnC : getNode sC (s.nextId + 3) = some
      { id := s.nextId + 3
        parentId := some (s.nextId + 1)
        messages := exchangeMsgs (jsTrim uA) none rA ++
          exchangeMsgs (jsTrim uB) (orUndefined qB) rB
        currentExchange :=
          { userMessage := jsTrim uC
            aiResponse := some rC
            quotedText := orUndefined qC
            sourceNodeId := srcC }
        position := pC.getD { x := 0, y := 0 } } := by
    rw [getNode_eq_find? hC, hnodesC,
      find?_append_none (find?_eq_none_of_lt hfreshBC)]
    simp [List.find?]
  refine ⟨?_, ?_, ?_⟩
  · rw [getNodeConversation_eq hgnC]
    simp [exchangeMsgs, huC, strTruthy_some_true hrC]
  · -- removeNode on A keeps C's conversation intact.
    have hremA := getActiveSession_removeNode hC s.nextId
    have hnodesRA : (removeNodeSess s.nextId sessC).canvas.nodes =
        (sess.canvas.nodes ++
          [{ id := s.nextId + 1
             parentId := some s.nextId
             messages := exchangeMsgs (jsTrim uA) none rA
             currentExchange :=
               { userMessage := jsTrim uB
                 aiResponse := some rB
                 quotedText := orUndefined qB
                 sourceNodeId := srcB }
             position := pB.getD { x := 0, y := 0 } }]) ++
          [{ id := s.nextId + 3
             parentId := some (s.nextId + 1)
             messages := exchangeMsgs (jsTrim uA) none rA ++
               exchangeMsgs (jsTrim uB) (orUndefined qB) rB
             currentExchange :=
               { userMessage := jsTrim uC
                 aiResponse := some rC
                 quotedText := orUndefined qC
                 sourceNodeId := srcC }
             position := pC.getD { x := 0, y := 0 } }] := by
      show sessC.canvas.nodes.filter (fun n => n.id != s.nextId) = _
      rw [hnodesC, hnodesB, hnodesA]
      rw [List.filter_append, List.filter_append, List.filter_append]
      rw [List.filter_eq_self.mpr
        (fun n hn => by simpa using Nat.ne_of_lt (hfresh n hn))]
      simp [show s.nextId + 1 ≠ s.nextId from by omega,
        show s.nextId + 3 ≠ s.nextId from by omega]
    have hfreshRA : ∀ n ∈ sess.canvas.nodes ++
        [{ id := s.nextId + 1
           parentId := some s.nextId
           messages := exchangeMsgs (jsTrim uA) none rA
           currentExchange :=
             { userMessage := jsTrim uB
               aiResponse := some rB
               quotedText := orUndefined qB
               sourceNodeId := srcB }
           position := pB.getD { x := 0, y := 0 } }], n.id < s.nextId + 3 := by
      intro n hn
      rcases List.mem_append.mp hn with h1 | h1
      · have := hfresh n h1
        omega
      · rw [List.mem_singleton] at h1
        subst h1
        show s.nextId + 1 < s.nextId + 3
        omega
    have hgnCA : getNode (removeNode sC s.nextId) (s.nextId + 3) = some
        { id := s.nextId + 3
          parentId := some (s.nextId + 1)
          messages := exchangeMsgs (jsTrim uA) none rA ++
            exchangeMsgs (jsTrim uB) (orUndefined qB) rB
          currentExchange :=
            { userMessage := jsTrim uC
              aiResponse := some rC
              quotedText := orUndefined qC
              sourceNodeId := srcC }
          position := pC.getD { x := 0, y := 0 } } := by
      rw [getNode_eq_find? hremA, hnodesRA,
        find?_append_none (find?_eq_none_of_lt hfreshRA)]
      simp [List.find?]
    rw [getNodeConversation_eq hgnCA]
    simp [exchangeMsgs, huC, strTruthy_some_true hrC]
  · -- removeNode on B keeps C's conversation intact.
    have hremB := getActiveSession_removeNode hC (s.nextId + 1)
    have hnodesRB : (removeNodeSess (s.nextId + 1) sessC).canvas.nodes =
        (sess.canvas.nodes ++
          [{ id := s.nextId
             parentId := none
             messages := []
             currentExchange :=
               { userMessage := jsTrim uA
                 aiResponse := some rA
                 quotedText := none
                 sourceNodeId := none }
             position := pA.getD { x := 0, y := 0 } }]) ++
          [{ id := s.nextId + 3
             parentId := some (s.nextId + 1)
             messages := exchangeMsgs (jsTrim uA) none rA ++
               exchangeMsgs (jsTrim uB) (orUndefined qB) rB
             currentExchange :=
               { userMessage := jsTrim uC
                 aiResponse := some rC
                 quotedText := orUndefined qC
                 sourceNodeId := srcC }
             position := pC.getD { x := 0, y := 0 } }] := by
      show sessC.canvas.nodes.filter (fun n => n.id != (s.nextId + 1)) = _
      rw [hnodesC, hnodesB, hnodesA]
      rw [List.filter_append, List.filter_append, List.filter_append]
      rw [List.filter_eq_self.mpr
        (fun n hn => by simpa using Nat.ne_of_lt (Nat.lt_succ_of_lt (hfresh n hn)))]
      simp [show s.nextId ≠ s.nextId + 1 from by omega,
        show s.nextId + 3 ≠ s.nextId + 1 from by omega]
    have hfreshRB : ∀ n ∈ sess.canvas.nodes ++
        [{ id := s.nextId
           parentId := none
           messages := []
           currentExchange :=
             { userMessage := jsTrim uA
               aiResponse := some rA
               quotedText := none
               sourceNodeId := none }
           position := pA.getD { x := 0, y := 0 } }], n.id < s.nextId + 3 := by
      intro n hn
      rcases List.mem_append.mp hn with h1 | h1
      · have := hfresh n h1
        omega
      · rw [List.mem_singleton] at h1
        subst h1
        show s.nextId < s.nextId + 3
        omega
    have hgnCB : getNode (removeNode sC (s.nextId + 1)) (s.nextId + 3) = some
        { id := s.nextId + 3
          parentId := some (s.nextId + 1)
          messages := exchangeMsgs (jsTrim uA) none rA ++
            exchangeMsgs (jsTrim uB) (orUndefined qB) rB
          currentExchange :=
            { userMessage := jsTrim uC
              aiResponse := some rC
              quotedText := orUndefined qC
              sourceNodeId := srcC }
          position := pC.getD { x := 0, y := 0 } } := by
      rw [getNode_eq_find? hremB, hnodesRB,
        find?_append_none (find?_eq_none_of_lt hfreshRB)]
      simp [List.find?]
    rw [getNodeConversation_eq hgnCB]
    simp [exchangeMsgs, huC, strTruthy_some_true hrC]

/-- Witness for C1 on the concrete empty-canvas store: A = node 2,
B = node 3 (branch with quoted text "q"), C = node 6. -/
theorem conversation_chain_snapshot_witness :
    getNodeConversation
        (chainC1 demoStore "a" "b" "c" "ra" "rb" "rc" (some "q") none none none
          none none none).1
        (chainC1 demoStore "a" "b" "c" "ra" "rb" "rc" (some "q") none none none
          none none none).2.2.2 =
      exchangeMsgs (jsTrim "a") none "ra" ++
        exchangeMsgs (jsTrim "b") (orUndefined (some "q")) "rb" ++
        exchangeMsgs (jsTrim "c") (orUndefined none) "rc" ∧
    getNodeConversation
        (removeNode
          (chainC1 demoStore "a" "b" "c" "ra" "rb" "rc" (some "q") none none none
            none none none).1
          (chainC1 demoStore "a" "b" "c" "ra" "rb" "rc" (some "q") none none none
            none none none).2.1)
        (chainC1 demoStore "a" "b" "c" "ra" "rb" "rc" (some "q") none none none
          none none none).2.2.2 =
      exchangeMsgs (jsTrim "a") none "ra" ++
        exchangeMsgs (jsTrim "b") (orUndefined (some "q")) "rb" ++
        exchangeMsgs (jsTrim "c") (orUndefined none) "rc" ∧
    getNodeConversation
        (removeNode
          (chainC1 demoStore "a" "b" "c" "ra" "rb" "rc" (some "q") none none none
            none none none).1
          (chainC1 demoStore "a" "b" "c" "ra" "rb" "rc" (some "q") none none none
            none none none).2.2.1)
        (chainC1 demoStore "a" "b" "c" "ra" "rb" "rc" (some "q") none none none
          none none none).2.2.2 =
      exchangeMsgs (jsTrim "a") none "ra" ++
        exchangeMsgs (jsTrim "b") (orUndefined (some "q")) "rb" ++
        exchangeMsgs (jsTrim "c") (orUndefined none) "rc" :=
  conversation_chain_snapshot demoStore demoEmptySession (by decide) (by decide)
    "a" "b" "c" "ra" "rb" "rc" (some "q") none none none none none none
    (by decide) (by decide) (by decide) (by decide) (by decide) (by decide)

/-! ### C5 -/

/-- The orchestrated submit flow on the concrete store with the completion
service failing with message `"network error"` before any chunk. -/
def failedGenerationRun : Store :=
  (submitFlow demoStore "hi" none none none none
    { chunks := [], error := some "network error" }).1

/-- C5: when AI generation fails, `streamMessage` swallows the error inside
its own `catch` (resetting streaming to idle) and resolves with no value, so
the submit handler's error-writing `catch` block never runs; the handler then
writes the awaited `undefined` into the node.  On the failing input the
node's `currentExchange.aiResponse` ends as `undefined` — not the
human-readable error text the claim requires — while the streaming state is
indeed reset to idle. -/
theorem generation_failure_no_error_text :
    (getNode failedGenerationRun 2).map (fun n => n.currentExchange.aiResponse) =
      some none ∧
    (getNode failedGenerationRun 2).map (fun n => n.currentExchange.aiResponse) ≠
      some (some (generationErrorText "network error")) ∧
    generationErrorText "network error" ≠ "" ∧
    failedGenerationRun.streamingState = initialStreamingState := by
  refine ⟨by decide, by decide, by decide, by decide⟩

/-! ### C8: the public operations and reachable-state invariants -/

/-- The store's public operations, as enumerated by the claim. -/
inductive Op where
  | createSession (title : String)
  | setActiveSession (sessionId : Nat)
  | deleteSession (sessionId : Nat)
  | createContextualNode (userMessage : String) (parentNodeId : Option Nat)
      (quotedText : Option String) (sourceNodeId : Option Nat)
      (position : Option Pos)
  | updateNode (nodeId : Nat) (u : NodeUpdates)
  | removeNode (nodeId : Nat)
  | removeEdge (edgeId : Nat)
  | startStreaming (nodeId : Nat)
  | updateStreamingText (text : String)
  | finishStreaming
deriving Repr, DecidableEq

def applyOp (s : Store) : Op → Store
  | .createSession t => (createSession s t).1
  | .setActiveSession sid => setActiveSession s sid
  | .deleteSession sid => deleteSession s sid
  | .createContextualNode u p q src pos => (createContextualNode s u p q src pos).1
  | .updateNode nid u => updateNode s nid u
  | .removeNode nid => removeNode s nid
  | .removeEdge eid => removeEdge s eid
  | .startStreaming nid => startStreaming s nid
  | .updateStreamingText t => updateStreamingText s t
  | .finishStreaming => finishStreaming s

def runOps (s : Store) (ops : List Op) : Store := ops.foldl applyOp s

def nodeIds (c : ConversationCanvas) : List Nat := c.nodes.map (fun n => n.id)

/-- Every edge's target references a node present in the same canvas. -/
def TargetsPresent (c : ConversationCanvas) : Prop :=
  ∀ e ∈ c.edges, e.target ∈ nodeIds c

/-- Every edge's source references a node present in the same canvas. -/
def SourcesPresent (c : ConversationCanvas) : Prop :=
  ∀ e ∈ c.edges, e.source ∈ nodeIds c

/-- Each node has at most one parent edge: edge targets are pairwise
distinct. -/
def AtMostOneParent (c : ConversationCanvas) : Prop :=
  c.edges.Pairwise (fun e1 e2 => e1.target ≠ e2.target)

/-- The parent→child step relation of a canvas. -/
def edgeRel (c : ConversationCanvas) (x y : Nat) : Prop :=
  ∃ e ∈ c.edges, e.source = x ∧ e.target = y

/-- No directed cycle through the canvas's edges. -/
def Acyclic (c : ConversationCanvas) : Prop :=
  ∀ x, ¬ Relation.TransGen (edgeRel c) x x

/-- Every edge points from an older id to a strictly fresher id. -/
def EdgesIncrease (c : ConversationCanvas) : Prop :=
  ∀ e ∈ c.edges, e.source < e.target

/-- An op is "good" when it has the shape every repository caller produces:
a `createContextualNode` parent id names a node currently present in the
active canvas (branch parents come from existing nodes), and an
`updateNode` payload does not carry `id` (no caller ever renames a node).
The store itself enforces neither. -/
def goodOp (s : Store) : Op → Bool
  | .createContextualNode _ (some pid) _ _ _ =>
    match getActiveCanvas s with
    | some c => c.nodes.any (fun n => n.id == pid)
    | none => true
  | .updateNode _ u => u.id.isNone
  | _ => true

def goodRun (s : Store) : List Op → Bool
  | [] => true
  | op :: ops => goodOp s op && goodRun (applyOp s op) ops

/-- Per-session part of the universal invariant: node ids are below the id
counter, edge targets are present, and each node has at most one parent. -/
def SessInv (nx : Nat) (sess : ConversationSession) : Prop :=
  (∀ i ∈ nodeIds sess.canvas, i < nx) ∧
  TargetsPresent sess.canvas ∧ AtMostOneParent sess.canvas

def Inv1 (s : Store) : Prop := ∀ sess ∈ s.sessions, SessInv s.nextId sess

/-- Per-session part of the invariant that additionally holds along good
runs: edge sources are present and edges increase in id. -/
def SessInv2 (sess : ConversationSession) : Prop :=
  SourcesPresent sess.canvas ∧ EdgesIncrease sess.canvas

def Inv2 (s : Store) : Prop := Inv1 s ∧ ∀ sess ∈ s.sessions, SessInv2 sess

theorem sessInv_mono {nx nx2 : Nat} {sess : ConversationSession}
    (hle : nx ≤ nx2) (h : SessInv nx sess) : SessInv nx2 sess :=
  ⟨fun i hi => Nat.lt_of_lt_of_le (h.1 i hi) hle, h.2.1, h.2.2⟩

theorem acyclic_of_increase {c : ConversationCanvas}
    (h : EdgesIncrease c) : Acyclic c := by
  intro x hx
  have key : ∀ a b : Nat, Relation.TransGen (edgeRel c) a b → a < b := by
    intro a b hab
    induction hab with
    | single h1 =>
      obtain ⟨e, he, hs, ht⟩ := h1
      rw [← hs, ← ht]
      exact h e he
    | tail _ h2 ih =>
      obtain ⟨e, he, hs, ht⟩ := h2
      have := h e he
      omega
  exact absurd (key x x hx) (Nat.lt_irrefl x)

/-- Membership decomposition for the result of a write action: a session of
the updated store is an old session or the transform of the active one. -/
theorem sessions_withActiveSession {s : Store}
    {f : ConversationSession → ConversationSession} :
    ∀ sess2 ∈ (withActiveSession s f).sessions,
      sess2 ∈ s.sessions ∨
        ∃ x, getActiveSession s = some x ∧ x ∈ s.sessions ∧ sess2 = f x := by
  cases hA : getActiveSession s with
  | none =>
    rw [withActiveSession_of_none hA]
    intro sess2 h2
    exact Or.inl h2
  | some x =>
    obtain ⟨sid, hsid, hfind⟩ := activeSession_destruct hA
    rw [withActiveSession_eq_update hsid (anyActive_of_find? hfind)]
    intro sess2 h2
    rcases mem_updateFirst h2 with h3 | ⟨z, hz, h4⟩
    · exact Or.inl h3
    · have hzx : x = z := by
        rw [hfind] at hz
        exact Option.some.inj hz
      subst hzx
      exact Or.inr ⟨x, rfl, List.mem_of_find?_eq_some hfind, h4⟩

theorem finishStreaming_nextId (s : Store) :
    (finishStreaming s).nextId = s.nextId := by
  unfold finishStreaming
  cases hn : s.streamingState.nodeId with
  | none => rfl
  | some nid =>
    by_cases ht : s.streamingState.currentText ≠ ""
    · simp only [if_pos ht]
      exact commitAiResponse_nextId s nid _
    · simp only [if_neg ht]

theorem commitAiResponse_sessions (s : Store) (nid : Nat) (t : Option String) :
    ∀ sess2 ∈ (commitAiResponse s nid t).sessions,
      sess2 ∈ s.sessions ∨
        ∃ x u, u.id = none ∧ getActiveSession s = some x ∧ x ∈ s.sessions ∧
          sess2 = updateNodeSess nid u x := by
  unfold commitAiResponse
  cases hn : getNode s nid with
  | none => intro sess2 h2; exact Or.inl h2
  | some node =>
    intro sess2 h2
    rcases sessions_withActiveSession sess2 h2 with h3 | ⟨x, hx, hmem, h4⟩
    · exact Or.inl h3
    · exact Or.inr ⟨x, _, rfl, hx, hmem, h4⟩

theorem finishStreaming_sessions (s : Store) :
    ∀ sess2 ∈ (finishStreaming s).sessions,
      sess2 ∈ s.sessions ∨
        ∃ x nid u, u.id = none ∧ getActiveSession s = some x ∧ x ∈ s.sessions ∧
          sess2 = updateNodeSess nid u x := by
  unfold finishStreaming
  cases hn : s.streamingState.nodeId with
  | none => intro sess2 h2; exact Or.inl h2
  | some nid =>
    by_cases ht : s.streamingState.currentText ≠ ""
    · simp only [if_pos ht]
      intro sess2 h2
      rcases commitAiResponse_sessions s nid
          (some s.streamingState.currentText) sess2 h2 with
        h3 | ⟨x, u, huid, hx, hmem, h4⟩
      · exact Or.inl h3
      · exact Or.inr ⟨x, nid, u, huid, hx, hmem, h4⟩
    · simp only [if_neg ht]
      intro sess2 h2
      exact Or.inl h2

/-! ### Invariant preservation through the session transformers -/

theorem nodeIds_addNodeSess (node : ConversationNode) (sess : ConversationSession) :
    nodeIds (addNodeSess node sess).canvas = nodeIds sess.canvas ++ [node.id] := by
  show (sess.canvas.nodes ++ [node]).map (fun n => n.id) = _
  rw [List.map_append]
  rfl

/-- An id-free update payload leaves the canvas's set of node ids intact; an
update that carries `id` renames a node and this equation fails. -/
theorem nodeIds_updateNodeSess {nid : Nat} {u : NodeUpdates} (huid : u.id = none)
    (sess : ConversationSession) :
    nodeIds (updateNodeSess nid u sess).canvas = nodeIds sess.canvas := by
  unfold updateNodeSess
  split
  · show (updateFirst (fun n => n.id == nid)
      (fun n => applyUpdates n u) sess.canvas.nodes).map (fun n => n.id) =
      sess.canvas.nodes.map (fun n => n.id)
    refine @map_updateFirst ConversationNode Nat (fun n => n.id == nid)
      (fun n => applyUpdates n u) (fun n => n.id) (fun x => ?_)
      sess.canvas.nodes
    show (applyUpdates x u).id = x.id
    show u.id.getD x.id = x.id
    rw [huid]
    rfl
  · rfl

theorem edges_updateNodeSess (nid : Nat) (u : NodeUpdates)
    (sess : ConversationSession) :
    (updateNodeSess nid u sess).canvas.edges = sess.canvas.edges := by
  unfold updateNodeSess
  split
  · rfl
  · rfl

theorem sessInv_updateNodeSess {nx nid : Nat} {u : NodeUpdates}
    (huid : u.id = none)
    {sess : ConversationSession} (h : SessInv nx sess) :
    SessInv nx (updateNodeSess nid u sess) := by
  obtain ⟨hids, htgt, hpar⟩ := h
  refine ⟨?_, ?_, ?_⟩
  · intro i hi
    rw [nodeIds_updateNodeSess huid] at hi
    exact hids i hi
  · intro e he
    rw [edges_updateNodeSess] at he
    rw [nodeIds_updateNodeSess huid]
    exact htgt e he
  · show (updateNodeSess nid u sess).canvas.edges.Pairwise _
    rw [edges_updateNodeSess]
    exact hpar

theorem sessInv2_updateNodeSess {nid : Nat} {u : NodeUpdates}
    (huid : u.id = none)
    {sess : ConversationSession} (h : SessInv2 sess) :
    SessInv2 (updateNodeSess nid u sess) := by
  obtain ⟨hsrc, hinc⟩ := h
  constructor
  · intro e he
    rw [edges_updateNodeSess] at he
    rw [nodeIds_updateNodeSess huid]
    exact hsrc e he
  · intro e he
    rw [edges_updateNodeSess] at he
    exact hinc e he

theorem sessInv_removeNodeSess {nx nid : Nat} {sess : ConversationSession}
    (h : SessInv nx sess) : SessInv nx (removeNodeSess nid sess) := by
  obtain ⟨hids, htgt, hpar⟩ := h
  refine ⟨?_, ?_, ?_⟩
  · intro i hi
    apply hids
    rcases List.mem_map.mp hi with ⟨n, hn, rfl⟩
    exact List.mem_map.mpr ⟨n, List.mem_of_mem_filter hn, rfl⟩
  · intro e he
    have hmem := List.mem_of_mem_filter he
    have hpred := List.of_mem_filter he
    simp only [Bool.and_eq_true, bne_iff_ne, ne_eq] at hpred
    have h2 := htgt e hmem
    rcases List.mem_map.mp h2 with ⟨m, hm, hmid⟩
    refine List.mem_map.mpr ⟨m, List.mem_filter.mpr ⟨hm, ?_⟩, hmid⟩
    rw [show m.id = e.target from hmid]
    simp [hpred.2]
  · exact hpar.sublist (List.filter_sublist _)

theorem sessInv2_removeNodeSess {nid : Nat} {sess : ConversationSession}
    (h : SessInv2 sess) : SessInv2 (removeNodeSess nid sess) := by
  obtain ⟨hsrc, hinc⟩ := h
  constructor
  · intro e he
    have hmem := List.mem_of_mem_filter he
    have hpred := List.of_mem_filter he
    simp only [Bool.and_eq_true, bne_iff_ne, ne_eq] at hpred
    have h2 := hsrc e hmem
    rcases List.mem_map.mp h2 with ⟨m, hm, hmid⟩
    refine List.mem_map.mpr ⟨m, List.mem_filter.mpr ⟨hm, ?_⟩, hmid⟩
    rw [show m.id = e.source from hmid]
    simp [hpred.1]
  · intro e he
    exact hinc e (List.mem_of_mem_filter he)

theorem sessInv_removeEdgeSess {nx eid : Nat} {sess : ConversationSession}
    (h : SessInv nx sess) : SessInv nx (removeEdgeSess eid sess) := by
  obtain ⟨hids, htgt, hpar⟩ := h
  refine ⟨?_, ?_, ?_⟩
  · intro i hi
    exact hids i hi
  · intro e he
    exact htgt e (List.mem_of_mem_filter he)
  · exact hpar.sublist (List.filter_sublist _)

theorem sessInv2_removeEdgeSess {eid : Nat} {sess : ConversationSession}
    (h : SessInv2 sess) : SessInv2 (removeEdgeSess eid sess) := by
  obtain ⟨hsrc, hinc⟩ := h
  constructor
  · intro e he
    exact hsrc e (List.mem_of_mem_filter he)
  · intro e he
    exact hinc e (List.mem_of_mem_filter he)

theorem sessInv_addNodeSess {nx nx2 : Nat} {node : ConversationNode}
    {sess : ConversationSession} (h : SessInv nx sess) (hle : nx ≤ nx2)
    (hid : node.id < nx2) : SessInv nx2 (addNodeSess node sess) := by
  obtain ⟨hids, htgt, hpar⟩ := h
  refine ⟨?_, ?_, ?_⟩
  · intro i hi
    rw [nodeIds_addNodeSess] at hi
    rcases List.mem_append.mp hi with h5 | h5
    · exact Nat.lt_of_lt_of_le (hids i h5) hle
    · rw [List.mem_singleton] at h5
      subst h5
      exact hid
  · intro e he
    rw [nodeIds_addNodeSess]
    exact List.mem_append.mpr (Or.inl (htgt e he))
  · exact hpar

theorem sessInv2_addNodeSess {node : ConversationNode}
    {sess : ConversationSession} (h : SessInv2 sess) :
    SessInv2 (addNodeSess node sess) := by
  obtain ⟨hsrc, hinc⟩ := h
  constructor
  · intro e he
    rw [nodeIds_addNodeSess]
    exact List.mem_append.mpr (Or.inl (hsrc e he))
  · intro e he
    exact hinc e he

theorem sessInv_addEdgeSess {nx : Nat} {e : ConversationEdge}
    {sess : ConversationSession} (h : SessInv nx sess)
    (htgt2 : e.target ∈ nodeIds sess.canvas)
    (hfreshTgt : ∀ e1 ∈ sess.canvas.edges, e1.target ≠ e.target) :
    SessInv nx (addEdgeSess e sess) := by
  obtain ⟨hids, htgt, hpar⟩ := h
  refine ⟨?_, ?_, ?_⟩
  · intro i hi
    exact hids i hi
  · intro e2 he2
    rcases List.mem_append.mp he2 with h5 | h5
    · exact htgt e2 h5
    · rw [List.mem_singleton] at h5
      subst h5
      exact htgt2
  · show (sess.canvas.edges ++ [e]).Pairwise _
    rw [List.pairwise_append]
    refine ⟨hpar, List.pairwise_singleton _ _, ?_⟩
    intro e1 h1 e2 h2
    rw [List.mem_singleton] at h2
    subst h2
    exact hfreshTgt e1 h1

theorem sessInv2_addEdgeSess {e : ConversationEdge}
    {sess : ConversationSession} (h : SessInv2 sess)
    (hsrc2 : e.source ∈ nodeIds sess.canvas)
    (hinc2 : e.source < e.target) : SessInv2 (addEdgeSess e sess) := by
  obtain ⟨hsrc, hinc⟩ := h
  constructor
  · intro e2 he2
    rcases List.mem_append.mp he2 with h5 | h5
    · exact hsrc e2 h5
    · rw [List.mem_singleton] at h5
      subst h5
      exact hsrc2
  · intro e2 he2
    rcases List.mem_append.mp he2 with h5 | h5
    · exact hinc e2 h5
    · rw [List.mem_singleton] at h5
      subst h5
      exact hinc2

/-- Per-session part of the unconditional invariant: every edge's target is
below the id counter (targets are minted fresh at edge creation) and edge
targets are pairwise distinct, so each node has at most one parent edge.
This holds for arbitrary operations — including id-renaming `updateNode`
payloads and unvalidated `createContextualNode` parents — because no
operation ever rewrites an existing edge. -/
def SessInvT (nx : Nat) (sess : ConversationSession) : Prop :=
  (∀ e ∈ sess.canvas.edges, e.target < nx) ∧ AtMostOneParent sess.canvas

def InvT (s : Store) : Prop := ∀ sess ∈ s.sessions, SessInvT s.nextId sess

theorem sessInvT_mono {nx nx2 : Nat} {sess : ConversationSession}
    (hle : nx ≤ nx2) (h : SessInvT nx sess) : SessInvT nx2 sess :=
  ⟨fun e he => Nat.lt_of_lt_of_le (h.1 e he) hle, h.2⟩

theorem sessInvT_updateNodeSess {nx nid : Nat} {u : NodeUpdates}
    {sess : ConversationSession} (h : SessInvT nx sess) :
    SessInvT nx (updateNodeSess nid u sess) := by
  obtain ⟨htl, hpar⟩ := h
  constructor
  · intro e he
    rw [edges_updateNodeSess] at he
    exact htl e he
  · show (updateNodeSess nid u sess).canvas.edges.Pairwise _
    rw [edges_updateNodeSess]
    exact hpar

theorem sessInvT_removeNodeSess {nx nid : Nat} {sess : ConversationSession}
    (h : SessInvT nx sess) : SessInvT nx (removeNodeSess nid sess) := by
  obtain ⟨htl, hpar⟩ := h
  constructor
  · intro e he
    exact htl e (List.mem_of_mem_filter he)
  · exact hpar.sublist (List.filter_sublist _)

theorem sessInvT_removeEdgeSess {nx eid : Nat} {sess : ConversationSession}
    (h : SessInvT nx sess) : SessInvT nx (removeEdgeSess eid sess) := by
  obtain ⟨htl, hpar⟩ := h
  constructor
  · intro e he
    exact htl e (List.mem_of_mem_filter he)
  · exact hpar.sublist (List.filter_sublist _)

theorem sessInvT_addNodeSess {nx nx2 : Nat} {node : ConversationNode}
    {sess : ConversationSession} (h : SessInvT nx sess) (hle : nx ≤ nx2) :
    SessInvT nx2 (addNodeSess node sess) := by
  obtain ⟨htl, hpar⟩ := h
  constructor
  · intro e he
    exact Nat.lt_of_lt_of_le (htl e he) hle
  · exact hpar

theorem sessInvT_addEdgeSess {nx nx2 : Nat} {e : ConversationEdge}
    {sess : ConversationSession} (h : SessInvT nx sess) (hle : nx ≤ nx2)
    (htlt : e.target < nx2) (hfresh : nx ≤ e.target) :
    SessInvT nx2 (addEdgeSess e sess) := by
  obtain ⟨htl, hpar⟩ := h
  constructor
  · intro e2 he2
    rcases List.mem_append.mp he2 with h5 | h5
    · exact Nat.lt_of_lt_of_le (htl e2 h5) hle
    · rw [List.mem_singleton] at h5
      subst h5
      exact htlt
  · show (sess.canvas.edges ++ [e]).Pairwise _
    rw [List.pairwise_append]
    refine ⟨hpar, List.pairwise_singleton _ _, ?_⟩
    intro e1 h1 e2 h2
    rw [List.mem_singleton] at h2
    subst h2
    exact Nat.ne_of_lt (Nat.lt_of_lt_of_le (htl e1 h1) hfresh)

theorem createContextualNode_nextId_root (s : Store) (u : String)
    (q : Option String) (src : Option Nat) (pos : Option Pos) :
    (createContextualNode s u none q src pos).1.nextId = s.nextId + 1 :=
  addNode_nextId _ _

theorem createContextualNode_nextId_child (s : Store) (u : String) (pid : Nat)
    (q : Option String) (src : Option Nat) (pos : Option Pos) :
    (createContextualNode s u (some pid) q src pos).1.nextId = s.nextId + 2 := by
  simp only [createContextualNode]
  simp [addEdge_nextId, addNode_nextId]

/-- Every public operation — with no goodness assumption at all — preserves
the edge-target bound and the at-most-one-parent property. -/
theorem invT_applyOp {s : Store} (hinv : InvT s) : ∀ op : Op, InvT (applyOp s op) := by
  intro op
  cases op with
  | createSession t =>
    intro sess2 h2
    have hnx : (applyOp s (Op.createSession t)).nextId = s.nextId + 2 := rfl
    rw [hnx]
    rcases List.mem_append.mp h2 with h3 | h3
    · exact sessInvT_mono (by omega) (hinv sess2 h3)
    · rw [List.mem_singleton] at h3
      subst h3
      exact ⟨fun e he => absurd he (List.not_mem_nil e), List.Pairwise.nil⟩
  | setActiveSession sid => exact hinv
  | deleteSession sid =>
    intro sess2 h2
    exact hinv sess2 (List.mem_of_mem_filter h2)
  | startStreaming nid => exact hinv
  | updateStreamingText t => exact hinv
  | updateNode nid u =>
    intro sess2 h2
    have hnx : (applyOp s (Op.updateNode nid u)).nextId = s.nextId :=
      withActiveSession_nextId _ _
    rw [hnx]
    rcases sessions_withActiveSession sess2 h2 with h3 | ⟨x, hx, hmem, rfl⟩
    · exact hinv sess2 h3
    · exact sessInvT_updateNodeSess (hinv x hmem)
  | removeNode nid =>
    intro sess2 h2
    have hnx : (applyOp s (Op.removeNode nid)).nextId = s.nextId :=
      withActiveSession_nextId _ _
    rw [hnx]
    rcases sessions_withActiveSession sess2 h2 with h3 | ⟨x, hx, hmem, rfl⟩
    · exact hinv sess2 h3
    · exact sessInvT_removeNodeSess (hinv x hmem)
  | removeEdge eid =>
    intro sess2 h2
    have hnx : (applyOp s (Op.removeEdge eid)).nextId = s.nextId :=
      withActiveSession_nextId _ _
    rw [hnx]
    rcases sessions_withActiveSession sess2 h2 with h3 | ⟨x, hx, hmem, rfl⟩
    · exact hinv sess2 h3
    · exact sessInvT_removeEdgeSess (hinv x hmem)
  | finishStreaming =>
    intro sess2 h2
    have hnx : (applyOp s Op.finishStreaming).nextId = s.nextId :=
      finishStreaming_nextId s
    rw [hnx]
    rcases finishStreaming_sessions s sess2 h2 with
      h3 | ⟨x, nid, u, huid, hx, hmem, rfl⟩
    · exact hinv sess2 h3
    · exact sessInvT_updateNodeSess (hinv x hmem)
  | createContextualNode u p q src pos =>
    cases p with
    | none =>
      intro sess2 h2
      have hnx : (applyOp s (Op.createContextualNode u none q src pos)).nextId =
          s.nextId + 1 := createContextualNode_nextId_root s u q src pos
      rw [hnx]
      rcases sessions_withActiveSession sess2 h2 with h3 | ⟨x, hx, hmem, rfl⟩
      · exact sessInvT_mono (by omega) (hinv sess2 h3)
      · exact sessInvT_addNodeSess (hinv x hmem) (by omega)
    | some pid =>
      intro sess2 h2
      have hnx : (applyOp s (Op.createContextualNode u (some pid) q src pos)).nextId =
          s.nextId + 2 := createContextualNode_nextId_child s u pid q src pos
      rw [hnx]
      simp only [applyOp] at h2
      cases hA : getActiveSession s with
      | none =>
        rw [(createContextualNode_inactive s hA u (some pid) q src pos).2.1] at h2
        exact sessInvT_mono (by omega) (hinv sess2 h2)
      | some sessAct =>
        have hmemAct : sessAct ∈ s.sessions := by
          obtain ⟨sid, hsid, hfind⟩ := activeSession_destruct hA
          exact List.mem_of_find?_eq_some hfind
        set nl : ConversationNode :=
          { id := s.nextId
            parentId := some pid
            messages := getNodeConversation { s with nextId := s.nextId + 1 } pid
            currentExchange :=
              { userMessage := jsTrim u
                aiResponse := some ""
                quotedText := orUndefined q
                sourceNodeId := src }
            position := pos.getD { x := 0, y := 0 } }
        rcases sessions_withActiveSession sess2 h2 with h3 | ⟨x, hx, hmemx, rfl⟩
        · rcases sessions_withActiveSession sess2 h3 with h4 | ⟨y, hy, hmemy, rfl⟩
          · exact sessInvT_mono (by omega) (hinv sess2 h4)
          · have hy2 : sessAct = y := Option.some.inj
              ((show getActiveSession { s with nextId := s.nextId + 1 } =
                some sessAct from hA).symm.trans hy)
            subst hy2
            exact sessInvT_addNodeSess (hinv sessAct hmemAct) (by omega)
        · have h1 := getActiveSession_addNode
            (show getActiveSession { s with nextId := s.nextId + 1 } =
              some sessAct from hA) nl
          have h1x : getActiveSession
              { addNode { s with nextId := s.nextId + 1 } nl with
                  nextId := (addNode { s with nextId := s.nextId + 1 } nl).nextId + 1 } =
              some (addNodeSess nl sessAct) := h1
          have hxid : x = addNodeSess nl sessAct :=
            Option.some.inj (hx.symm.trans h1x)
          subst hxid
          apply sessInvT_addEdgeSess
          · exact sessInvT_addNodeSess (hinv sessAct hmemAct) (Nat.le_refl _)
          · omega
          · show s.nextId < s.nextId + 2
            omega
          · show s.nextId ≤ s.nextId
            exact Nat.le_refl _

/-- Every good operation preserves the core graph invariant: node ids below
the counter, edge targets present, one parent edge per node. -/
theorem inv1_applyOp {s : Store} (hinv : Inv1 s) (op : Op)
    (hgood : goodOp s op = true) : Inv1 (applyOp s op) := by
  cases op with
  | createSession t =>
    intro sess2 h2
    have hnx : (applyOp s (Op.createSession t)).nextId = s.nextId + 2 := rfl
    rw [hnx]
    rcases List.mem_append.mp h2 with h3 | h3
    · exact sessInv_mono (by omega) (hinv sess2 h3)
    · rw [List.mem_singleton] at h3
      subst h3
      refine ⟨?_, ?_, ?_⟩
      · intro i hi
        exact absurd hi (List.not_mem_nil i)
      · intro e he
        exact absurd he (List.not_mem_nil e)
      · exact List.Pairwise.nil
  | setActiveSession sid => exact hinv
  | deleteSession sid =>
    intro sess2 h2
    exact hinv sess2 (List.mem_of_mem_filter h2)
  | startStreaming nid => exact hinv
  | updateStreamingText t => exact hinv
  | updateNode nid u =>
    have huid : u.id = none := by
      have h9 : u.id.isNone = true := hgood
      exact Option.isNone_iff_eq_none.mp h9
    intro sess2 h2
    have hnx : (applyOp s (Op.updateNode nid u)).nextId = s.nextId :=
      withActiveSession_nextId _ _
    rw [hnx]
    rcases sessions_withActiveSession sess2 h2 with h3 | ⟨x, hx, hmem, rfl⟩
    · exact hinv sess2 h3
    · exact sessInv_updateNodeSess huid (hinv x hmem)
  | removeNode nid =>
    intro sess2 h2
    have hnx : (applyOp s (Op.removeNode nid)).nextId = s.nextId :=
      withActiveSession_nextId _ _
    rw [hnx]
    rcases sessions_withActiveSession sess2 h2 with h3 | ⟨x, hx, hmem, rfl⟩
    · exact hinv sess2 h3
    · exact sessInv_removeNodeSess (hinv x hmem)
  | removeEdge eid =>
    intro sess2 h2
    have hnx : (applyOp s (Op.removeEdge eid)).nextId = s.nextId :=
      withActiveSession_nextId _ _
    rw [hnx]
    rcases sessions_withActiveSession sess2 h2 with h3 | ⟨x, hx, hmem, rfl⟩
    · exact hinv sess2 h3
    · exact sessInv_removeEdgeSess (hinv x hmem)
  | finishStreaming =>
    intro sess2 h2
    have hnx : (applyOp s Op.finishStreaming).nextId = s.nextId :=
      finishStreaming_nextId s
    rw [hnx]
    rcases finishStreaming_sessions s sess2 h2 with
      h3 | ⟨x, nid, u, huid, hx, hmem, rfl⟩
    · exact hinv sess2 h3
    · exact sessInv_updateNodeSess huid (hinv x hmem)
  | createContextualNode u p q src pos =>
    cases p with
    | none =>
      intro sess2 h2
      have hnx : (applyOp s (Op.createContextualNode u none q src pos)).nextId =
          s.nextId + 1 := createContextualNode_nextId_root s u q src pos
      rw [hnx]
      rcases sessions_withActiveSession sess2 h2 with h3 | ⟨x, hx, hmem, rfl⟩
      · exact sessInv_mono (by omega) (hinv sess2 h3)
      · exact sessInv_addNodeSess (hinv x hmem) (by omega) (Nat.lt_succ_self _)
    | some pid =>
      intro sess2 h2
      have hnx : (applyOp s (Op.createContextualNode u (some pid) q src pos)).nextId =
          s.nextId + 2 := createContextualNode_nextId_child s u pid q src pos
      rw [hnx]
      simp only [applyOp] at h2
      cases hA : getActiveSession s with
      | none =>
        rw [(createContextualNode_inactive s hA u (some pid) q src pos).2.1] at h2
        exact sessInv_mono (by omega) (hinv sess2 h2)
      | some sessAct =>
        have hmemAct : sessAct ∈ s.sessions := by
          obtain ⟨sid, hsid, hfind⟩ := activeSession_destruct hA
          exact List.mem_of_find?_eq_some hfind
        have hActInv := hinv sessAct hmemAct
        set nl : ConversationNode :=
          { id := s.nextId
            parentId := some pid
            messages := getNodeConversation { s with nextId := s.nextId + 1 } pid
            currentExchange :=
              { userMessage := jsTrim u
                aiResponse := some ""
                quotedText := orUndefined q
                sourceNodeId := src }
            position := pos.getD { x := 0, y := 0 } }
        rcases sessions_withActiveSession sess2 h2 with h3 | ⟨x, hx, hmemx, rfl⟩
        · rcases sessions_withActiveSession sess2 h3 with h4 | ⟨y, hy, hmemy, rfl⟩
          · exact sessInv_mono (by omega) (hinv sess2 h4)
          · have hy2 : sessAct = y := Option.some.inj
              ((show getActiveSession { s with nextId := s.nextId + 1 } =
                some sessAct from hA).symm.trans hy)
            subst hy2
            exact sessInv_addNodeSess (hinv sessAct hmemAct) (by omega)
              (show s.nextId < s.nextId + 2 from by omega)
        · have h1 := getActiveSession_addNode
            (show getActiveSession { s with nextId := s.nextId + 1 } =
              some sessAct from hA) nl
          have h1x : getActiveSession
              { addNode { s with nextId := s.nextId + 1 } nl with
                  nextId := (addNode { s with nextId := s.nextId + 1 } nl).nextId + 1 } =
              some (addNodeSess nl sessAct) := h1
          have hxid : x = addNodeSess nl sessAct :=
            Option.some.inj (hx.symm.trans h1x)
          subst hxid
          apply sessInv_addEdgeSess
          · exact sessInv_addNodeSess (hinv sessAct hmemAct) (by omega)
              (show s.nextId < s.nextId + 2 from by omega)
          · rw [nodeIds_addNodeSess]
            exact List.mem_append.mpr (Or.inr (List.mem_singleton.mpr rfl))
          · intro e1 he1
            have htgt1 := hActInv.2.1 e1 he1
            have hlt := hActInv.1 _ htgt1
            exact Nat.ne_of_lt hlt

/-- Along good calls (`createContextualNode` parents exist in the active
canvas), every operation also preserves source-presence and id-increase of
edges. -/
theorem inv2_applyOp {s : Store} (hinv : Inv2 s) (op : Op)
    (hgood : goodOp s op = true) : Inv2 (applyOp s op) := by
  obtain ⟨hinv1, hinv2⟩ := hinv
  refine ⟨inv1_applyOp hinv1 op hgood, ?_⟩
  cases op with
  | createSession t =>
    intro sess2 h2
    rcases List.mem_append.mp h2 with h3 | h3
    · exact hinv2 sess2 h3
    · rw [List.mem_singleton] at h3
      subst h3
      constructor
      · intro e he
        exact absurd he (List.not_mem_nil e)
      · intro e he
        exact absurd he (List.not_mem_nil e)
  | setActiveSession sid => exact hinv2
  | deleteSession sid =>
    intro sess2 h2
    exact hinv2 sess2 (List.mem_of_mem_filter h2)
  | startStreaming nid => exact hinv2
  | updateStreamingText t => exact hinv2
  | updateNode nid u =>
    have huid : u.id = none := by
      have h9 : u.id.isNone = true := hgood
      exact Option.isNone_iff_eq_none.mp h9
    intro sess2 h2
    rcases sessions_withActiveSession sess2 h2 with h3 | ⟨x, hx, hmem, rfl⟩
    · exact hinv2 sess2 h3
    · exact sessInv2_updateNodeSess huid (hinv2 x hmem)
  | removeNode nid =>
    intro sess2 h2
    rcases sessions_withActiveSession sess2 h2 with h3 | ⟨x, hx, hmem, rfl⟩
    · exact hinv2 sess2 h3
    · exact sessInv2_removeNodeSess (hinv2 x hmem)
  | removeEdge eid =>
    intro sess2 h2
    rcases sessions_withActiveSession sess2 h2 with h3 | ⟨x, hx, hmem, rfl⟩
    · exact hinv2 sess2 h3
    · exact sessInv2_removeEdgeSess (hinv2 x hmem)
  | finishStreaming =>
    intro sess2 h2
    rcases finishStreaming_sessions s sess2 h2 with
      h3 | ⟨x, nid, u, huid, hx, hmem, rfl⟩
    · exact hinv2 sess2 h3
    · exact sessInv2_updateNodeSess huid (hinv2 x hmem)
  | createContextualNode u p q src pos =>
    cases p with
    | none =>
      intro sess2 h2
      rcases sessions_withActiveSession sess2 h2 with h3 | ⟨x, hx, hmem, rfl⟩
      · exact hinv2 sess2 h3
      · exact sessInv2_addNodeSess (hinv2 x hmem)
    | some pid =>
      intro sess2 h2
      simp only [applyOp] at h2
      cases hA : getActiveSession s with
      | none =>
        rw [(createContextualNode_inactive s hA u (some pid) q src pos).2.1] at h2
        exact hinv2 sess2 h2
      | some sessAct =>
        have hmemAct : sessAct ∈ s.sessions := by
          obtain ⟨sid, hsid, hfind⟩ := activeSession_destruct hA
          exact List.mem_of_find?_eq_some hfind
        have hActInv1 := hinv1 sessAct hmemAct
        have hpidmem : pid ∈ nodeIds sessAct.canvas := by
          have hc : getActiveCanvas s = some sessAct.canvas := by
            unfold getActiveCanvas
            rw [hA]
            rfl
          unfold goodOp at hgood
          rw [hc] at hgood
          have hgood2 : sessAct.canvas.nodes.any (fun n => n.id == pid) = true := hgood
          rcases List.any_eq_true.mp hgood2 with ⟨n, hn, hpn⟩
          have hnp : n.id = pid := by simpa using hpn
          exact hnp ▸ List.mem_map.mpr ⟨n, hn, rfl⟩
        have hpidlt : pid < s.nextId := hActInv1.1 pid hpidmem
        set nl : ConversationNode :=
          { id := s.nextId
            parentId := some pid
            messages := getNodeConversation { s with nextId := s.nextId + 1 } pid
            currentExchange :=
              { userMessage := jsTrim u
                aiResponse := some ""
                quotedText := orUndefined q
                sourceNodeId := src }
            position := pos.getD { x := 0, y := 0 } }
        rcases sessions_withActiveSession sess2 h2 with h3 | ⟨x, hx, hmemx, rfl⟩
        · rcases sessions_withActiveSession sess2 h3 with h4 | ⟨y, hy, hmemy, rfl⟩
          · exact hinv2 sess2 h4
          · have hy2 : sessAct = y := Option.some.inj
              ((show getActiveSession { s with nextId := s.nextId + 1 } =
                some sessAct from hA).symm.trans hy)
            subst hy2
            exact sessInv2_addNodeSess (hinv2 sessAct hmemAct)
        · have h1 := getActiveSession_addNode
            (show getActiveSession { s with nextId := s.nextId + 1 } =
              some sessAct from hA) nl
          have h1x : getActiveSession
              { addNode { s with nextId := s.nextId + 1 } nl with
                  nextId := (addNode { s with nextId := s.nextId + 1 } nl).nextId + 1 } =
              some (addNodeSess nl sessAct) := h1
          have hxid : x = addNodeSess nl sessAct :=
            Option.some.inj (hx.symm.trans h1x)
          subst hxid
          apply sessInv2_addEdgeSess
          · exact sessInv2_addNodeSess (hinv2 sessAct hmemAct)
          · rw [nodeIds_addNodeSess]
            exact List.mem_append.mpr (Or.inl hpidmem)
          · exact hpidlt

theorem invT_runOps {s : Store} (hinv : InvT s) :
    ∀ ops : List Op, InvT (runOps s ops) := by
  intro ops
  induction ops generalizing s with
  | nil => exact hinv
  | cons op ops ih => exact ih (invT_applyOp hinv op)

theorem inv1_runOps {s : Store} (hinv : Inv1 s) :
    ∀ ops : List Op, goodRun s ops = true → Inv1 (runOps s ops) := by
  intro ops
  induction ops generalizing s with
  | nil =>
    intro _
    exact hinv
  | cons op ops ih =>
    intro hg
    have hg2 : (goodOp s op && goodRun (applyOp s op) ops) = true := hg
    rw [Bool.and_eq_true] at hg2
    obtain ⟨h1, h2⟩ := hg2
    exact ih (inv1_applyOp hinv op h1) h2

theorem inv2_runOps {s : Store} (hinv : Inv2 s) :
    ∀ ops : List Op, goodRun s ops = true → Inv2 (runOps s ops) := by
  intro ops
  induction ops generalizing s with
  | nil =>
    intro _
    exact hinv
  | cons op ops ih =>
    intro hg
    have hg2 : (goodOp s op && goodRun (applyOp s op) ops) = true := hg
    rw [Bool.and_eq_true] at hg2
    obtain ⟨h1, h2⟩ := hg2
    exact ih (inv2_applyOp hinv op h1) h2

instance (c : ConversationCanvas) : Decidable (TargetsPresent c) :=
  inferInstanceAs (Decidable (∀ e ∈ c.edges, e.target ∈ nodeIds c))

instance (c : ConversationCanvas) : Decidable (SourcesPresent c) :=
  inferInstanceAs (Decidable (∀ e ∈ c.edges, e.source ∈ nodeIds c))

/-- **C8** (two counterexamples to the original claim): (a) `createContextualNode`
does not validate its parent id, so a parent absent from the active canvas
still records the parent→child edge, whose source then references no node
present in the canvas; (b) `updateNode` merges `{ ...node, ...updates }`
including the `id` field, so renaming a child node (node 3 → 999) leaves its
parent edge's target referencing no present node. -/
theorem dangling_edge_counterexample :
    (¬ (∀ sess ∈ (runOps initialStore
        [Op.createSession "t",
         Op.createContextualNode "hi" (some 999) none none none]).sessions,
        SourcesPresent sess.canvas)) ∧
    (¬ (∀ sess ∈ (runOps initialStore
        [Op.createSession "t",
         Op.createContextualNode "root" none none none none,
         Op.createContextualNode "child" (some 2) none none none,
         Op.updateNode 3 { id := some 999 }]).sessions,
        TargetsPresent sess.canvas)) := by
  refine ⟨by decide, by decide⟩

/-- **C8** (corrected): in every state reachable from the empty store by the
public operations, each node has at most one parent edge; and whenever every
`createContextualNode` call passes no parent or a parent id currently
present in the active canvas, and no `updateNode` payload carries `id` (a
good run — the shape of every repository caller), every edge's source and
target reference nodes present in the same canvas and the graph is acyclic.
Without those provisos a dangling edge source (unvalidated parent) or a
dangling edge target (id-renaming update) is reachable. -/
theorem reachable_graph_invariant (ops : List Op) :
    (∀ sess ∈ (runOps initialStore ops).sessions, AtMostOneParent sess.canvas) ∧
    (goodRun initialStore ops = true →
      ∀ sess ∈ (runOps initialStore ops).sessions,
        TargetsPresent sess.canvas ∧ SourcesPresent sess.canvas ∧
          Acyclic sess.canvas) := by
  constructor
  · intro sess h
    have hinvT0 : InvT initialStore :=
      fun sess2 h2 => absurd h2 (List.not_mem_nil sess2)
    exact (invT_runOps hinvT0 ops sess h).2
  · intro hg sess h
    have hinv20 : Inv2 initialStore :=
      ⟨fun sess2 h2 => absurd h2 (List.not_mem_nil sess2),
       fun sess2 h2 => absurd h2 (List.not_mem_nil sess2)⟩
    have hs := inv2_runOps hinv20 ops hg
    exact ⟨(hs.1 sess h).2.1, (hs.2 sess h).1,
      acyclic_of_increase (hs.2 sess h).2⟩

/-- The corrected invariant evaluated on a concrete good run: a session, a
root node, a quoted branch off the root, and an id-free update of the
branch node. -/
theorem reachable_graph_invariant_witness :
    goodRun initialStore
      [Op.createSession "t",
       Op.createContextualNode "hi" none none none none,
       Op.createContextualNode "follow" (some 2) (some "hi") (some 2) none,
       Op.updateNode 3 { position := some { x := 1, y := 2 } }] = true ∧
    (∀ sess ∈ (runOps initialStore
        [Op.createSession "t",
         Op.createContextualNode "hi" none none none none,
         Op.createContextualNode "follow" (some 2) (some "hi") (some 2) none,
         Op.updateNode 3 { position := some { x := 1, y := 2 } }]).sessions,
        TargetsPresent sess.canvas ∧ SourcesPresent sess.canvas ∧
          Acyclic sess.canvas) :=
  ⟨by decide,
    (reachable_graph_invariant
      [Op.createSession "t",
       Op.createContextualNode "hi" none none none none,
       Op.createContextualNode "follow" (some 2) (some "hi") (some 2) none,
       Op.updateNode 3 { position := some { x := 1, y := 2 } }]).2
      (by decide)⟩

end LatticeChat
